import Mathlib

/-!
Verification development for the quant_studio content-acquisition and
stock-association pipeline.

Each definition below is a shallow embedding of one function of the
repository (`scripts/crawler_zhihu.py`, `scripts/tag_articles.py`,
`backend/app/routers/sync.py`, `backend/app/routers/sentiment.py`,
`backend/scraper.py`).  Database tables are modelled as lists of rows,
SQL upserts as pure store transformers, timestamps as naturals
(`CURRENT_TIMESTAMP` becomes an explicit `now` argument), and calendar
dates as serial day numbers (strptime/strftime of a valid `YYYY-MM-DD`
string is a bijection onto day numbers, so `date - timedelta(days=i)`
becomes subtraction by `i`).
-/

set_option linter.unusedVariables false

namespace QuantStudio

/-! ## Rate/Circuit governor: `ZhihuCrawler._check_403_limit` -/

/-- `ZhihuCrawler.max_403_errors` (crawler_zhihu.py line 144). -/
def max403Errors : Nat := 3

/-- One response processed by `ZhihuCrawler._check_403_limit`
(crawler_zhihu.py lines 156-179).  The state is the
`consecutive_403_count` counter; a 403 increments it and the method
raises `CrawlerStoppedError` (modelled as `.error ()`) as soon as the
incremented counter reaches `max_403_errors`; any non-403 status resets
the counter to zero. -/
def check403Limit (count : Nat) (statusCode : Nat) : Except Unit Nat :=
  if statusCode = 403 then
    if count + 1 ≥ max403Errors then .error () else .ok (count + 1)
  else
    .ok 0

/-- The governor run over a whole sequence of HTTP status codes, one
`_check_403_limit` call per response, starting from counter `count`;
stops (and discards the rest of the trace) at the first raise. -/
def runGovernor (count : Nat) : List Nat → Except Unit Nat
  | [] => .ok count
  | s :: rest =>
    match check403Limit count s with
    | .error e => .error e
    | .ok c => runGovernor c rest

/-- A status trace contains three consecutive 403 responses. -/
def hasTriple403 : List Nat → Bool
  | a :: b :: c :: rest => (a == 403 && b == 403 && c == 403) || hasTriple403 (b :: c :: rest)
  | _ => false

/-- Length of the run of leading 403s of a trace. -/
def leading403 (l : List Nat) : Nat := (l.takeWhile (· == 403)).length

lemma leading403_cons (s : Nat) (rest : List Nat) :
    leading403 (s :: rest) = if s = 403 then 1 + leading403 rest else 0 := by
  by_cases h : s = 403 <;> simp [leading403, List.takeWhile_cons, h] <;> omega

lemma leading403_cons_403 (rest : List Nat) :
    leading403 (403 :: rest) = 1 + leading403 rest := by
  rw [leading403_cons]; simp

lemma leading403_cons_ne (s : Nat) (rest : List Nat) (h : s ≠ 403) :
    leading403 (s :: rest) = 0 := by
  rw [leading403_cons]; simp [h]

lemma hasTriple403_cons_ne (s : Nat) (rest : List Nat) (h : s ≠ 403) :
    hasTriple403 (s :: rest) = hasTriple403 rest := by
  match rest with
  | [] => rfl
  | [b] => rfl
  | b :: c :: r => simp [hasTriple403, h]

lemma hasTriple403_of_leading (l : List Nat) (h : 3 ≤ leading403 l) :
    hasTriple403 l = true := by
  match l with
  | [] => simp [leading403, List.takeWhile] at h
  | [a] =>
    rw [leading403_cons] at h
    by_cases ha : a = 403 <;> simp [ha, leading403, List.takeWhile] at h
  | [a, b] =>
    rw [leading403_cons, leading403_cons] at h
    by_cases ha : a = 403 <;> by_cases hb : b = 403 <;>
      simp [ha, hb, leading403, List.takeWhile] at h
  | a :: b :: c :: r =>
    rw [leading403_cons, leading403_cons, leading403_cons] at h
    by_cases ha : a = 403
    · by_cases hb : b = 403
      · by_cases hc : c = 403
        · simp [hasTriple403, ha, hb, hc]
        · simp [ha, hb, hc] at h
      · simp [ha, hb] at h
    · simp [ha] at h

lemma hasTriple403_cons_403 (rest : List Nat)
    (h : hasTriple403 (403 :: rest) = true) :
    2 ≤ leading403 rest ∨ hasTriple403 rest = true := by
  match rest with
  | [] => simp [hasTriple403] at h
  | [b] => simp [hasTriple403] at h
  | b :: c :: r =>
    simp only [hasTriple403, Bool.or_eq_true, Bool.and_eq_true, beq_iff_eq,
      true_and] at h
    rcases h with ⟨hb, hc⟩ | h
    · subst hb; subst hc
      left
      rw [leading403_cons_403, leading403_cons_403]
      omega
    · right; exact h

/-- The governor invariant: starting from a counter `c < 3`, the run
raises exactly when the trace opens with at least `3 - c` consecutive
403s or contains three consecutive 403s further on. -/
lemma runGovernor_error_iff (l : List Nat) :
    ∀ c : Nat, c < 3 →
      (runGovernor c l = .error () ↔
        (3 ≤ c + leading403 l ∨ hasTriple403 l = true)) := by
  induction l with
  | nil =>
    intro c hc
    simp only [runGovernor, leading403, List.takeWhile, hasTriple403]
    constructor
    · intro h; cases h
    · rintro (h | h)
      · simp at h; omega
      · simp at h
  | cons s rest ih =>
    intro c hc
    by_cases h403 : s = 403
    · subst h403
      by_cases htrip : c + 1 ≥ 3
      · have hstep : check403Limit c 403 = .error () := by
          simp [check403Limit, max403Errors]; omega
        simp only [runGovernor, hstep]
        rw [leading403_cons_403]
        constructor
        · intro _; left; omega
        · intro _; trivial
      · have hstep : check403Limit c 403 = .ok (c + 1) := by
          simp [check403Limit, max403Errors]; omega
        simp only [runGovernor, hstep]
        rw [ih (c + 1) (by omega), leading403_cons_403]
        constructor
        · rintro (h | h)
          · left; omega
          · right
            match rest, h with
            | b :: c' :: r, h =>
              simp only [hasTriple403, Bool.or_eq_true]
              right; exact h
            | [b], h => simp [hasTriple403] at h
            | [], h => simp [hasTriple403] at h
        · rintro (h | h)
          · left; omega
          · rcases hasTriple403_cons_403 rest h with h2 | h2
            · left; omega
            · right; exact h2
    · have hstep : check403Limit c s = .ok 0 := by
        simp [check403Limit, h403]
      simp only [runGovernor, hstep]
      rw [ih 0 (by omega), hasTriple403_cons_ne s rest h403,
        leading403_cons_ne s rest h403]
      constructor
      · rintro (h | h)
        · exact Or.inr (hasTriple403_of_leading rest (by omega))
        · exact Or.inr h
      · rintro (h | h)
        · omega
        · exact Or.inr h

/-! ## Job orchestrator: persisted sync state (`routers/sync.py`) -/

/-- The persisted job state written to `sync_state.json`
(sync.py `_read_sync_state`, lines 32-47). -/
structure SyncState where
  is_running : Bool
  current_task : Option String
  progress : Option Nat
  last_sync_at : Option String
  log_output : String
  deriving Repr, DecidableEq

/-- The default state returned by `_read_sync_state` when no state file
exists. -/
def defaultSyncState : SyncState :=
  { is_running := false
  , current_task := none
  , progress := none
  , last_sync_at := none
  , log_output := "" }

/-- The first `_update_sync_state` performed by the scheduled background
task `run_sync_task` (sync.py line 106): flips the running flag, records
the task name and zeroes the progress. -/
def runSyncTaskStart (taskType : String) (s : SyncState) : SyncState :=
  { s with is_running := true, current_task := some taskType, progress := some 0 }

/-- The `/sync/crawl` endpoint `start_crawl` (sync.py lines 202-223)
composed with the first write of the background task it schedules.
Returns `(some 400, untouched state)` when a task is already running
(the `HTTPException` is raised before any state write), and
`(none, transitioned state)` otherwise. -/
def startCrawl (s : SyncState) : Option Nat × SyncState :=
  if s.is_running then (some 400, s)
  else (none, runSyncTaskStart "crawl_zhihu" s)

/-! ## Content store writer: `ZhihuCrawler.save_content` and the
`/sync/upload` article upsert -/

/-- One row of the `zhihu_content` table (models/zhihu.py `ZhihuContent`;
init_db.py: `content_id` is the primary key). -/
structure ContentRow where
  content_id : String
  content_type : String
  title : String
  content_text : String
  content_url : String
  created_time : Nat
  updated_time : Nat
  voteup_count : Nat
  comment_count : Nat
  author_id : String
  author_name : String
  author_avatar : String
  is_tagged : Nat
  created_at : Nat
  deriving Repr, DecidableEq

/-- The content dict produced by `ZhihuCrawler.extract_content`
(crawler_zhihu.py lines 300-340) and the `ArticleUploadItem` payload
(sync.py lines 342-355): every column except `is_tagged`/`created_at`. -/
structure ContentPayload where
  content_id : String
  content_type : String
  title : String
  content_text : String
  content_url : String
  created_time : Nat
  updated_time : Nat
  voteup_count : Nat
  comment_count : Nat
  author_id : String
  author_name : String
  author_avatar : String
  deriving Repr, DecidableEq

/-- The freshly inserted row: the `VALUES (..., 0, CURRENT_TIMESTAMP)`
tuple of `save_content` (`is_tagged = 0`, `created_at = now`), which is
also the row built by the insert branch of `upload_data`
(`is_tagged=0`, `created_at` defaulted to the current time). -/
def rowOfPayload (p : ContentPayload) (now : Nat) : ContentRow :=
  { content_id := p.content_id
  , content_type := p.content_type
  , title := p.title
  , content_text := p.content_text
  , content_url := p.content_url
  , created_time := p.created_time
  , updated_time := p.updated_time
  , voteup_count := p.voteup_count
  , comment_count := p.comment_count
  , author_id := p.author_id
  , author_name := p.author_name
  , author_avatar := p.author_avatar
  , is_tagged := 0
  , created_at := now }

/-- Lookup by primary key `content_id`. -/
def findContent (s : List ContentRow) (cid : String) : Option ContentRow :=
  s.find? (fun r => r.content_id == cid)

/-- The `ON CONFLICT(content_id) DO UPDATE SET` clause of the
PostgreSQL branch of `save_content` (crawler_zhihu.py lines 560-591):
every payload column is overwritten; `content_id` (the conflict key),
`is_tagged` and `created_at` are not in the SET list and keep their
stored values. -/
def updateRowPG (r : ContentRow) (p : ContentPayload) : ContentRow :=
  { content_id := r.content_id
  , content_type := p.content_type
  , title := p.title
  , content_text := p.content_text
  , content_url := p.content_url
  , created_time := p.created_time
  , updated_time := p.updated_time
  , voteup_count := p.voteup_count
  , comment_count := p.comment_count
  , author_id := p.author_id
  , author_name := p.author_name
  , author_avatar := p.author_avatar
  , is_tagged := r.is_tagged
  , created_at := r.created_at }

/-- `ZhihuCrawler.save_content`, PostgreSQL branch: plain INSERT when
the key is absent, `DO UPDATE` in place when it is present. -/
def saveContentPG (s : List ContentRow) (p : ContentPayload) (now : Nat) :
    List ContentRow :=
  if (findContent s p.content_id).isSome then
    s.map (fun r => if r.content_id == p.content_id then updateRowPG r p else r)
  else s ++ [rowOfPayload p now]

/-- `ZhihuCrawler.save_content`, SQLite branch (crawler_zhihu.py lines
592-612): `INSERT OR REPLACE` keyed on the primary key `content_id`
rewrites the whole row, so `is_tagged` becomes 0 and `created_at`
becomes the current timestamp again. -/
def saveContentSQLite (s : List ContentRow) (p : ContentPayload) (now : Nat) :
    List ContentRow :=
  if (findContent s p.content_id).isSome then
    s.map (fun r => if r.content_id == p.content_id then rowOfPayload p now else r)
  else s ++ [rowOfPayload p now]

/-- The update branch of the article loop in `upload_data` (sync.py
lines 425-433): only `title`, `content_text`, `content_url`,
`voteup_count`, `comment_count` and `updated_time` are assigned. -/
def uploadArticleUpdate (r : ContentRow) (p : ContentPayload) : ContentRow :=
  { r with
      title := p.title
    , content_text := p.content_text
    , content_url := p.content_url
    , voteup_count := p.voteup_count
    , comment_count := p.comment_count
    , updated_time := p.updated_time }

/-- The article upsert of the `/sync/upload` endpoint `upload_data`
(sync.py lines 420-452). -/
def uploadArticle (s : List ContentRow) (p : ContentPayload) (now : Nat) :
    List ContentRow :=
  if (findContent s p.content_id).isSome then
    s.map (fun r => if r.content_id == p.content_id then uploadArticleUpdate r p else r)
  else s ++ [rowOfPayload p now]

/-! ## Creator store writer: `ZhihuCrawler.save_creator` and the
`/sync/upload` creator upsert -/

/-- One row of `zhihu_creators` (models/zhihu.py `ZhihuCreator`;
init_db.py: `user_id` is the primary key, `url_token` carries no
uniqueness constraint). -/
structure CreatorRow where
  user_id : String
  url_token : String
  user_nickname : String
  user_avatar : String
  user_link : String
  gender : String
  fans : Nat
  follows : Nat
  answer_count : Nat
  article_count : Nat
  voteup_count : Nat
  is_active : Nat
  last_crawled_at : Option Nat
  created_at : Nat
  deriving Repr, DecidableEq

/-- The creator dict produced by `get_creator_info` /
`extract_creator_from_html` and the `CreatorUploadItem` payload. -/
structure CreatorPayload where
  user_id : String
  url_token : String
  user_nickname : String
  user_avatar : String
  user_link : String
  gender : String
  fans : Nat
  follows : Nat
  answer_count : Nat
  article_count : Nat
  voteup_count : Nat
  deriving Repr, DecidableEq

/-- A freshly inserted creator row (`is_active = 1`,
`created_at = CURRENT_TIMESTAMP`, `last_crawled_at` unset). -/
def creatorRowOfPayload (c : CreatorPayload) (now : Nat) : CreatorRow :=
  { user_id := c.user_id
  , url_token := c.url_token
  , user_nickname := c.user_nickname
  , user_avatar := c.user_avatar
  , user_link := c.user_link
  , gender := c.gender
  , fans := c.fans
  , follows := c.follows
  , answer_count := c.answer_count
  , article_count := c.article_count
  , voteup_count := c.voteup_count
  , is_active := 1
  , last_crawled_at := none
  , created_at := now }

/-- `ZhihuCrawler.save_creator`, PostgreSQL branch (crawler_zhihu.py
lines 499-528): upsert keyed by `ON CONFLICT(user_id)`; on conflict all
payload columns except the key are overwritten (`is_active`,
`created_at`, `last_crawled_at` untouched). -/
def saveCreatorPG (s : List CreatorRow) (c : CreatorPayload) (now : Nat) :
    List CreatorRow :=
  if (s.find? (fun r => r.user_id == c.user_id)).isSome then
    s.map (fun r =>
      if r.user_id == c.user_id then
        { r with
            url_token := c.url_token
          , user_nickname := c.user_nickname
          , user_avatar := c.user_avatar
          , user_link := c.user_link
          , gender := c.gender
          , fans := c.fans
          , follows := c.follows
          , answer_count := c.answer_count
          , article_count := c.article_count
          , voteup_count := c.voteup_count }
      else r)
  else s ++ [creatorRowOfPayload c now]

/-- `ZhihuCrawler.save_creator`, SQLite branch (crawler_zhihu.py lines
529-547): `INSERT OR REPLACE` keyed on the primary key `user_id`
(init_db.py declares no unique constraint on `url_token`). -/
def saveCreatorSQLite (s : List CreatorRow) (c : CreatorPayload) (now : Nat) :
    List CreatorRow :=
  if (s.find? (fun r => r.user_id == c.user_id)).isSome then
    s.map (fun r => if r.user_id == c.user_id then creatorRowOfPayload c now else r)
  else s ++ [creatorRowOfPayload c now]

/-- The creator upsert of `upload_data` (sync.py lines 454-491): keyed
by `url_token`; a placeholder `user_id` is replaced by the incoming
real id when the incoming id is non-empty and differs from the
`url_token`; `gender` and `is_active` are not touched on update. -/
def uploadCreator (s : List CreatorRow) (c : CreatorPayload) (now : Nat) :
    List CreatorRow :=
  if (s.find? (fun r => r.url_token == c.url_token)).isSome then
    s.map (fun r =>
      if r.url_token == c.url_token then
        { r with
            user_id := if c.user_id ≠ "" ∧ c.user_id ≠ c.url_token
                       then c.user_id else r.user_id
          , user_nickname := c.user_nickname
          , user_avatar := c.user_avatar
          , user_link := c.user_link
          , fans := c.fans
          , follows := c.follows
          , answer_count := c.answer_count
          , article_count := c.article_count
          , voteup_count := c.voteup_count }
      else r)
  else s ++ [creatorRowOfPayload c now]

/-! ## Incremental crawl loop: `ZhihuCrawler.crawl_creator` -/

/-- Python truthiness of an optional integer (`if latest_time_in_db
and ...`, `if self.start_timestamp and ...`): `None` and `0` are
falsy. -/
def optTruthy : Option Nat → Bool
  | none => false
  | some n => n != 0

/-- `get_latest_content_time_for_creator` (crawler_zhihu.py lines
693-714): `SELECT MAX(created_time) FROM zhihu_content WHERE
author_id = ?`, with `row[0] if row and row[0] else None` mapping both
an empty result and a zero maximum to `None`. -/
def getLatestContentTime (s : List ContentRow) (authorId : String) :
    Option Nat :=
  match ((s.filter (fun r => r.author_id == authorId)).map
      (fun r => r.created_time)).max? with
  | none => none
  | some m => if m = 0 then none else some m

/-- The per-run filters of the crawl loop: the incremental flag, the
watermark `latest_time_in_db`, and the caller-supplied
`start_timestamp`/`end_timestamp` window. -/
structure CrawlFilters where
  incremental : Bool
  watermark : Option Nat
  startTs : Option Nat
  endTs : Option Nat

/-- The three `continue` guards of the item loop in `crawl_creator`
(crawler_zhihu.py lines 415-435 and 455-475).  Returns
`(save this item?, set should_stop?)`. -/
def itemAction (fl : CrawlFilters) (ct : Nat) : Bool × Bool :=
  if fl.incremental = true ∧ optTruthy fl.watermark = true ∧
      ct ≤ fl.watermark.getD 0 then (false, true)
  else if optTruthy fl.startTs = true ∧ ct < fl.startTs.getD 0 then
    (false, true)
  else if optTruthy fl.endTs = true ∧ ct > fl.endTs.getD 0 then
    (false, false)
  else (true, false)

/-- One API page: the extracted items and the `paging.is_end` flag. -/
structure Page where
  data : List ContentPayload
  is_end : Bool

/-- The `for item in res.get("data", [])` body: items are appended (and
saved) unless a guard skips them; `should_stop`, once set, stays set
but — because the guards use `continue` — later items of the same page
are still examined. -/
def processPage (fl : CrawlFilters) (items : List ContentPayload) :
    List ContentPayload × Bool :=
  items.foldl
    (fun acc item =>
      let a := itemAction fl item.created_time
      ((if a.1 then acc.1 ++ [item] else acc.1), acc.2 || a.2))
    ([], false)

/-- The `while True` pagination loop of `crawl_creator`: an empty page
stops immediately; otherwise the page is processed and the loop stops
when `is_end` or `should_stop` holds. -/
def crawlPages (fl : CrawlFilters) : List Page → List ContentPayload
  | [] => []
  | pg :: rest =>
    if pg.data.isEmpty then []
    else
      let r := processPage fl pg.data
      if pg.is_end || r.2 then r.1
      else r.1 ++ crawlPages fl rest

/-- `ZhihuCrawler.crawl_creator` (crawler_zhihu.py lines 364-492),
restricted to what it stores: the watermark is looked up only when the
run is incremental and no `start_timestamp` filter is set, then the
answer pages and the article pages are crawled under the same
filters; the returned list is exactly the set of payloads passed to
`save_content`. -/
def crawlCreator (store : List ContentRow) (authorId : String)
    (answerPages articlePages : List Page) (incremental : Bool)
    (startTs endTs : Option Nat) : List ContentPayload :=
  let wm := if incremental = true ∧ optTruthy startTs = false
            then getLatestContentTime store authorId else none
  let fl : CrawlFilters :=
    { incremental := incremental, watermark := wm
    , startTs := startTs, endTs := endTs }
  crawlPages fl answerPages ++ crawlPages fl articlePages

/-! ## Trading-day alignment: `align_to_trading_day` (tag_articles.py)

Calendar dates are modelled as serial day numbers (an `Int`): for valid
`YYYY-MM-DD` strings, `datetime.strptime`/`strftime` is a bijection onto
day numbers and `date - timedelta(days=i)` is subtraction by `i`, so the
`except` branch that swallows parse failures is unreachable.  The
trading-day set `daily_quotes.date` becomes a list of day numbers. -/

/-- The loop range `for i in range(1, 10)` of `align_to_trading_day`
(tag_articles.py line 119): offsets 1 through 9. -/
def LOOKBACK_OFFSETS : List Int := [1, 2, 3, 4, 5, 6, 7, 8, 9]

/-- The body of that loop: return the first `d - i` that is a trading
day, trying the offsets in order. -/
def lookbackSearch (d : Int) (T : List Int) : List Int → Option Int
  | [] => none
  | i :: rest => if (d - i) ∈ T then some (d - i) else lookbackSearch d T rest

/-- `align_to_trading_day` (tag_articles.py lines 104-126): an empty
trading-day set or a date already in the set is returned as-is;
otherwise the first hit of the lookback loop, or the date unchanged if
the loop finds nothing. -/
def alignToTradingDay (d : Int) (T : List Int) : Int :=
  if T = [] then d
  else if d ∈ T then d
  else (lookbackSearch d T LOOKBACK_OFFSETS).getD d

lemma lookbackSearch_none (d : Int) (T : List Int) :
    ∀ offs : List Int, (∀ i ∈ offs, (d - i) ∉ T) →
      lookbackSearch d T offs = none := by
  intro offs
  induction offs with
  | nil => intro _; rfl
  | cons i rest ih =>
    intro h
    unfold lookbackSearch
    rw [if_neg (h i (List.mem_cons_self i rest))]
    exact ih fun j hj => h j (List.mem_cons_of_mem i hj)

lemma lookbackSearch_first (d : Int) (T : List Int) :
    ∀ (pre : List Int) (i : Int) (post : List Int),
      (∀ j ∈ pre, (d - j) ∉ T) → (d - i) ∈ T →
      lookbackSearch d T (pre ++ i :: post) = some (d - i) := by
  intro pre
  induction pre with
  | nil =>
    intro i post _ hit
    rw [List.nil_append]
    unfold lookbackSearch
    rw [if_pos hit]
  | cons j rest ih =>
    intro i post hpre hit
    rw [List.cons_append]
    unfold lookbackSearch
    rw [if_neg (hpre j (List.mem_cons_self j rest))]
    exact ih i post (fun k hk => hpre k (List.mem_cons_of_mem j hk)) hit

/-! ## Manual association override: `update_article_stocks`
(routers/sentiment.py lines 319-348)

`article_stock_ref` date columns are modelled as `Option Nat`: the civil
date `datetime.fromtimestamp(t).strftime("%Y-%m-%d")` is modelled as the
day number `t / 86400` (the exact rendering is irrelevant to the claims)
and the `article_date or ""` fallback for a zero timestamp as `none`. -/

/-- One row of `article_stock_ref` (models/zhihu.py `ArticleStockRef`);
the autoincrement `id` is omitted. -/
structure StockRef where
  article_id : String
  stock_symbol : String
  display_date : Option Nat
  original_date : Option Nat
  match_keyword : String
  match_score : Nat
  created_at : Nat
  deriving Repr, DecidableEq

/-- Day number of an epoch timestamp, standing in for
`datetime.fromtimestamp(t).strftime("%Y-%m-%d")`. -/
def dayOfTimestamp (t : Nat) : Nat := t / 86400

/-- Python's `str.strip()`: drop whitespace from both ends. -/
def stripString (s : String) : String :=
  ⟨List.reverse (List.dropWhile Char.isWhitespace
    (List.reverse (List.dropWhile Char.isWhitespace s.data)))⟩

/-- One manually created association row (sentiment.py lines 336-343):
the symbol is stripped, the keyword is the literal "manual" and the
score is the sentinel 100. -/
def manualRef (cid sym : String) (articleDate : Option Nat) (now : Nat) :
    StockRef :=
  { article_id := cid
  , stock_symbol := stripString sym
  , display_date := articleDate
  , original_date := articleDate
  , match_keyword := "manual"
  , match_score := 100
  , created_at := now }

/-- `update_article_stocks`: 404 when the article does not exist;
otherwise delete every existing association row of the article and add
one manual row per submitted symbol whose stripped form is non-empty
(`if symbol.strip():`). -/
def updateArticleStocks (cs : List ContentRow) (refs : List StockRef)
    (cid : String) (syms : List String) (now : Nat) :
    Except Nat (List StockRef) :=
  match findContent cs cid with
  | none => .error 404
  | some article =>
    let articleDate : Option Nat :=
      if article.created_time ≠ 0 then some (dayOfTimestamp article.created_time)
      else none
    .ok ((refs.filter (fun r => r.article_id != cid)) ++
      (syms.filter (fun s => stripString s != "")).map
        (fun s => manualRef cid s articleDate now))

/-! ## Market-data updater: `fetch_stock_hist_with_retry` and
`update_daily_quotes` (backend/scraper.py)

A DataFrame is modelled as a list of opaque rows (`List Nat`); the
empty list is `pd.DataFrame()`.  The outcome of each outbound call is
an oracle supplied by the environment. -/

/-- Outcome of one data-source call: a returned DataFrame (possibly
empty), a `KeyError`, or any other exception. -/
inductive FetchResult where
  | ok (df : List Nat)
  | keyError
  | failure
  deriving Repr, DecidableEq

/-- The per-symbol network environment: `primary i` is the outcome of
the `i`-th `ak.stock_zh_a_hist` attempt, `secondary enc` the outcome of
`ak.stock_zh_a_daily` for the encoded symbol `enc`. -/
structure FetchEnv where
  primary : Nat → FetchResult
  secondary : String → FetchResult

/-- `symbol.startswith(("0", "3"))` for the single-character prefixes
used by the scraper: first-character comparison. -/
def firstCharIs (s : String) (c : Char) : Bool :=
  match s.data with
  | [] => false
  | a :: _ => a == c

/-- The Netease symbol encoding of `fetch_stock_hist_with_retry`
(scraper.py lines 251-257): '0' prefix for Shenzhen symbols (starting
'0' or '3'), '1' prefix for Shanghai symbols (starting '6' or '9'),
anything else unchanged. -/
def neteaseSymbol (symbol : String) : String :=
  if firstCharIs symbol '0' || firstCharIs symbol '3' then "0" ++ symbol
  else if firstCharIs symbol '6' || firstCharIs symbol '9' then "1" ++ symbol
  else symbol

/-- The `for attempt in range(max_retries)` loop over the East Money
source (scraper.py lines 235-247), with the remaining attempt count as
fuel.  Returns the DataFrame of the first successful non-empty attempt
(or `none`) paired with the list of `time.sleep(2 * (attempt + 1))`
backoff delays performed — a sleep happens only after a generic
exception on a non-final attempt; a `KeyError` breaks straight to the
fallback; an empty DataFrame just retries without sleeping. -/
def primaryLoop (env : FetchEnv) : Nat → Nat → Option (List Nat) × List Nat
  | _, 0 => (none, [])
  | attempt, fuel + 1 =>
    match env.primary attempt with
    | .ok df =>
      if df ≠ [] then (some df, [])
      else primaryLoop env (attempt + 1) fuel
    | .keyError => (none, [])
    | .failure =>
      let r := primaryLoop env (attempt + 1) fuel
      (r.1, (if 0 < fuel then [2 * (attempt + 1)] else []) ++ r.2)

/-- `fetch_stock_hist_with_retry` (scraper.py lines 227-278) with
`max_retries = 3`: the primary loop, then the Netease fallback under
the re-encoded symbol; every path that yields no data returns the empty
DataFrame.  (The column renaming applied to a successful fallback
result does not change the row set and is not modelled.)  The second
component carries the backoff delays performed. -/
def fetchStockHistWithRetry (env : FetchEnv) (symbol : String) :
    List Nat × List Nat :=
  let p := primaryLoop env 0 3
  match p.1 with
  | some df => (df, p.2)
  | none =>
    match env.secondary (neteaseSymbol symbol) with
    | .ok df => if df ≠ [] then (df, p.2) else ([], p.2)
    | _ => ([], p.2)

/-- The per-symbol loop of `update_daily_quotes` (scraper.py lines
348-455) restricted to the stock path: each instrument's rows are
whatever its fetch produced, an empty fetch stores nothing
(`if df.empty: continue`), and the `try/except` around the body means
one instrument's outcome never affects the others. -/
def updateDailyQuotes : List (String × FetchEnv) → List (String × List Nat)
  | [] => []
  | (sym, env) :: rest =>
    (sym, (fetchStockHistWithRetry env sym).1) :: updateDailyQuotes rest

/-! ## Association engine: `match_keywords` and the scoring pass of
`tag_articles` (tag_articles.py)

The keyword dictionary (a Python dict built by `load_stock_keywords`)
is modelled as an association list in insertion order, and the
`matches` / `combined_scores` dicts as association lists with the
Python-dict update discipline: assignment updates the first entry in
place, a new key is appended at the end. -/

/-- `TITLE_WEIGHT` (tag_articles.py line 33). -/
def TITLE_WEIGHT : Nat := 10

/-- `CONTENT_WEIGHT` (tag_articles.py line 34). -/
def CONTENT_WEIGHT : Nat := 1

/-- `MIN_SCORE_THRESHOLD` (tag_articles.py line 35). -/
def MIN_SCORE_THRESHOLD : Nat := 2

/-- Helper for `countOccs`: scan the text left to right; while the
cooldown is positive we are inside a counted match and only consume;
at cooldown 0 a match of `k` counts one occurrence and starts a
cooldown of `k.length - 1` over the remaining characters. -/
def countOccsGo (k : List Char) : List Char → Nat → Nat
  | [], _ => 0
  | _ :: rest, cd + 1 => countOccsGo k rest cd
  | c :: rest, 0 =>
    if k.isPrefixOf (c :: rest) then 1 + countOccsGo k rest (k.length - 1)
    else countOccsGo k rest 0

/-- `len(re.findall(re.escape(keyword), text))`: the number of
non-overlapping left-to-right occurrences of the literal `keyword` in
`text`. -/
def countOccs (k : String) (text : String) : Nat :=
  if k.data.isEmpty then 0 else countOccsGo k.data text.data 0

/-- Lookup in a dict-as-association-list. -/
def lookupMatch (m : List (String × Nat × String)) (sym : String) :
    Option (Nat × String) :=
  match m with
  | [] => none
  | e :: rest => if e.1 = sym then some e.2 else lookupMatch rest sym

/-- The dict update of the symbol loop in `match_keywords`
(tag_articles.py lines 156-163): if the symbol is present, replace its
entry only when the new count is strictly greater; otherwise append a
new entry. -/
def updateEntry (m : List (String × Nat × String)) (sym : String)
    (count : Nat) (kw : String) : List (String × Nat × String) :=
  match m with
  | [] => [(sym, count, kw)]
  | e :: rest =>
    if e.1 = sym then
      (if e.2.1 < count then (sym, count, kw) else e) :: rest
    else e :: updateEntry rest sym count kw

/-- `match_keywords` (tag_articles.py lines 139-165): for each keyword
of length ≥ 2 occurring in the text, fold its occurrence count into
the entries of all symbols it maps to. -/
def matchKeywords (text : String) (keywords : List (String × List String)) :
    List (String × Nat × String) :=
  if text.data.isEmpty then []
  else
    keywords.foldl
      (fun m e =>
        if e.1.length < 2 then m
        else
          let count := countOccs e.1 text
          if 0 < count then
            e.2.foldl (fun m' s => updateEntry m' s count e.1) m
          else m)
      []

/-- The dict update of the body-matches loop of `tag_articles`
(tag_articles.py lines 326-332): add the score to an existing entry
keeping its keyword, or append a new entry with the body keyword. -/
def addScoreEntry (m : List (String × Nat × String)) (sym : String)
    (score : Nat) (kw : String) : List (String × Nat × String) :=
  match m with
  | [] => [(sym, score, kw)]
  | e :: rest =>
    if e.1 = sym then (e.1, e.2.1 + score, e.2.2) :: rest
    else e :: addScoreEntry rest sym score kw

/-- The `combined_scores` computation of `tag_articles` (tag_articles.py
lines 319-332): title entries weighted by `TITLE_WEIGHT`, then body
entries weighted by `CONTENT_WEIGHT` folded in. -/
def combineScores (titleM contentM : List (String × Nat × String)) :
    List (String × Nat × String) :=
  contentM.foldl
    (fun acc e => addScoreEntry acc e.1 (e.2.1 * CONTENT_WEIGHT) e.2.2)
    (titleM.map (fun e => (e.1, e.2.1 * TITLE_WEIGHT, e.2.2)))

/-- The per-article scoring of `tag_articles`: match the title and the
body and combine.  An Association row is then written for every entry
with score ≥ `MIN_SCORE_THRESHOLD`. -/
def tagArticleScores (title content : String)
    (keywords : List (String × List String)) :
    List (String × Nat × String) :=
  combineScores (matchKeywords title keywords) (matchKeywords content keywords)

/-- The highest single-keyword occurrence count for a symbol in a text:
the maximum of `countOccs k text` over the keywords `k` of length ≥ 2
that map to the symbol. -/
def specFieldCount (sym text : String) :
    List (String × List String) → Nat
  | [] => 0
  | e :: rest =>
    max (if 2 ≤ e.1.length ∧ sym ∈ e.2 then countOccs e.1 text else 0)
        (specFieldCount sym text rest)

/-! ## Sample rows used by the concrete counterexamples -/

/-- A stored content row: tagged, stored `created_time = 1`, row created
at DB time 5. -/
def sampleRow : ContentRow :=
  { content_id := "c1", content_type := "answer", title := "t0"
  , content_text := "b0", content_url := "u0", created_time := 1
  , updated_time := 1, voteup_count := 0, comment_count := 0
  , author_id := "a", author_name := "n", author_avatar := "v"
  , is_tagged := 1, created_at := 5 }

/-- A re-crawl payload for the same `content_id` carrying a different
`created_time` (and a different `content_type`). -/
def samplePayload : ContentPayload :=
  { content_id := "c1", content_type := "article", title := "t1"
  , content_text := "b1", content_url := "u1", created_time := 2
  , updated_time := 3, voteup_count := 4, comment_count := 5
  , author_id := "a", author_name := "n2", author_avatar := "v2" }

/-- A creator first registered by alias: placeholder `user_id` equal to
its own `url_token`. -/
def placeholderCreatorRow : CreatorRow :=
  { user_id := "xu-yuan", url_token := "xu-yuan", user_nickname := "XY"
  , user_avatar := "", user_link := "", gender := "未知"
  , fans := 0, follows := 0, answer_count := 0, article_count := 0
  , voteup_count := 0, is_active := 1, last_crawled_at := none
  , created_at := 3 }

/-- The same creator as discovered by the crawler, now carrying its real
`user_id`. -/
def realCreatorPayload : CreatorPayload :=
  { user_id := "abc123", url_token := "xu-yuan", user_nickname := "XY"
  , user_avatar := "av", user_link := "lk", gender := "男"
  , fans := 10, follows := 2, answer_count := 7, article_count := 4
  , voteup_count := 99 }

/-! ## Generic facts about map-style upserts -/

lemma find?_map_upsert {α : Type} (p : α → Bool) (f : α → α)
    (hf : ∀ r, p r = true → p (f r) = true) (s : List α) :
    (s.map (fun r => if p r then f r else r)).find? p = (s.find? p).map f := by
  induction s with
  | nil => rfl
  | cons a rest ih =>
    by_cases ha : p a = true
    · simp only [List.map_cons, if_pos ha]
      rw [List.find?_cons_of_pos _ (hf a ha), List.find?_cons_of_pos _ ha]
      rfl
    · have ha' : p a = false := by simpa using ha
      simp only [List.map_cons, if_neg ha]
      rw [List.find?_cons_of_neg _ (by simp [ha']),
        List.find?_cons_of_neg _ (by simp [ha'])]
      exact ih

lemma map_upsert_idem {α : Type} (p : α → Bool) (f : α → α)
    (hf : ∀ r, p r = true → p (f r) = true)
    (hff : ∀ r, p r = true → f (f r) = f r) (s : List α) :
    ((s.map (fun r => if p r then f r else r)).map
        (fun r => if p r then f r else r)) =
      s.map (fun r => if p r then f r else r) := by
  induction s with
  | nil => rfl
  | cons a rest ih =>
    by_cases ha : p a = true
    · simp only [List.map_cons, if_pos ha, if_pos (hf a ha), hff a ha, ih]
    · simp only [List.map_cons, if_neg ha, ih]

/-! ## Theorems -/

/-- C1 counterexample. Re-running the PostgreSQL-branch content writer
with a payload carrying the same `content_id` but a different
`created_time` overwrites the initially stored `created_time` (1
becomes 2); the upload upsert does NOT overwrite all other fields
(`content_type` stays "answer" though the payload says "article"); and
the SQLite branch run twice with the identical payload does not yield
the same stored row when the DB clock has advanced. -/
theorem content_writer_frame_cex :
    (findContent (saveContentPG [sampleRow] samplePayload 9) "c1").map
        (fun r => r.created_time) = some 2 ∧
    sampleRow.created_time = 1 ∧
    samplePayload.content_id = sampleRow.content_id ∧
    (findContent (uploadArticle [sampleRow] samplePayload 9) "c1").map
        (fun r => r.content_type) = some "answer" ∧
    samplePayload.content_type = "article" ∧
    saveContentSQLite (saveContentSQLite [sampleRow] samplePayload 9)
        samplePayload 10 ≠ saveContentSQLite [sampleRow] samplePayload 9 := by
  decide

/-- C1 (amended). For a content item already present as row `r`:
the PostgreSQL-branch writer keeps `content_id`, `is_tagged` and
`created_at` and overwrites every other column — including
`created_time` — with the payload's values; the upload upsert keeps
`content_id`, `content_type`, `created_time`, the author columns,
`is_tagged` and `created_at`, and overwrites title, body, URL, the two
counters and `updated_time`; and re-running either writer with an
identical payload twice yields the same stored rows as running it
once. -/
theorem content_writer_upsert_amended (s : List ContentRow)
    (p : ContentPayload) (r : ContentRow) (t₁ t₂ : Nat)
    (hr : findContent s p.content_id = some r) :
    findContent (saveContentPG s p t₁) p.content_id = some
      { content_id := r.content_id
      , content_type := p.content_type
      , title := p.title
      , content_text := p.content_text
      , content_url := p.content_url
      , created_time := p.created_time
      , updated_time := p.updated_time
      , voteup_count := p.voteup_count
      , comment_count := p.comment_count
      , author_id := p.author_id
      , author_name := p.author_name
      , author_avatar := p.author_avatar
      , is_tagged := r.is_tagged
      , created_at := r.created_at } ∧
    findContent (uploadArticle s p t₁) p.content_id = some
      { content_id := r.content_id
      , content_type := r.content_type
      , title := p.title
      , content_text := p.content_text
      , content_url := p.content_url
      , created_time := r.created_time
      , updated_time := p.updated_time
      , voteup_count := p.voteup_count
      , comment_count := p.comment_count
      , author_id := r.author_id
      , author_name := r.author_name
      , author_avatar := r.author_avatar
      , is_tagged := r.is_tagged
      , created_at := r.created_at } ∧
    saveContentPG (saveContentPG s p t₁) p t₂ = saveContentPG s p t₁ ∧
    uploadArticle (uploadArticle s p t₁) p t₂ = uploadArticle s p t₁ := by
  have hsome : (findContent s p.content_id).isSome := by rw [hr]; rfl
  have hkeyPG : ∀ x : ContentRow, (x.content_id == p.content_id) = true →
      ((updateRowPG x p).content_id == p.content_id) = true := by
    intro x hx; simpa [updateRowPG] using hx
  have hkeyUp : ∀ x : ContentRow, (x.content_id == p.content_id) = true →
      ((uploadArticleUpdate x p).content_id == p.content_id) = true := by
    intro x hx; simpa [uploadArticleUpdate] using hx
  have hfindPG : findContent (saveContentPG s p t₁) p.content_id =
      some (updateRowPG r p) := by
    unfold saveContentPG
    rw [if_pos hsome]
    unfold findContent at hr ⊢
    rw [find?_map_upsert _ _ hkeyPG, hr]
    rfl
  have hfindUp : findContent (uploadArticle s p t₁) p.content_id =
      some (uploadArticleUpdate r p) := by
    unfold uploadArticle
    rw [if_pos hsome]
    unfold findContent at hr ⊢
    rw [find?_map_upsert _ _ hkeyUp, hr]
    rfl
  refine ⟨?_, ?_, ?_, ?_⟩
  · rw [hfindPG]; rfl
  · rw [hfindUp]; rfl
  · unfold saveContentPG
    rw [if_pos hsome]
    have hsome₂ : (findContent
        (s.map fun x => if x.content_id == p.content_id
          then updateRowPG x p else x) p.content_id).isSome := by
      unfold findContent at hr ⊢
      rw [find?_map_upsert _ _ hkeyPG, hr]
      rfl
    rw [if_pos hsome₂]
    exact map_upsert_idem _ _ hkeyPG (fun x _ => rfl) s
  · unfold uploadArticle
    rw [if_pos hsome]
    have hsome₂ : (findContent
        (s.map fun x => if x.content_id == p.content_id
          then uploadArticleUpdate x p else x) p.content_id).isSome := by
      unfold findContent at hr ⊢
      rw [find?_map_upsert _ _ hkeyUp, hr]
      rfl
    rw [if_pos hsome₂]
    exact map_upsert_idem _ _ hkeyUp (fun x _ => rfl) s

/-- Witness for C1 (amended) at the sample row and payload. -/
theorem content_writer_upsert_amended_witness :
    findContent [sampleRow] samplePayload.content_id = some sampleRow ∧
    (findContent (saveContentPG [sampleRow] samplePayload 9)
        samplePayload.content_id).map (fun r => r.is_tagged) = some 1 :=
  ⟨by decide,
   by
    rw [(content_writer_upsert_amended [sampleRow] samplePayload sampleRow 9 9
      (by decide)).1]
    rfl⟩

/-- C10. The two backend branches of `save_content` are not equivalent
on an existing row: the SQLite `INSERT OR REPLACE` rewrites the whole
row, leaving `is_tagged = 0` and a fresh `created_at = now`, while the
PostgreSQL `ON CONFLICT ... DO UPDATE` leaves `is_tagged` and
`created_at` at their stored values; hence on an already-tagged row the
two branches produce different stored rows. -/
theorem save_content_branches_not_equivalent (s : List ContentRow)
    (p : ContentPayload) (r : ContentRow) (t : Nat)
    (hr : findContent s p.content_id = some r) :
    findContent (saveContentSQLite s p t) p.content_id =
      some (rowOfPayload p t) ∧
    (rowOfPayload p t).is_tagged = 0 ∧
    (rowOfPayload p t).created_at = t ∧
    (findContent (saveContentPG s p t) p.content_id).map
        (fun x => (x.is_tagged, x.created_at)) =
      some (r.is_tagged, r.created_at) ∧
    (r.is_tagged = 1 →
      findContent (saveContentSQLite s p t) p.content_id ≠
        findContent (saveContentPG s p t) p.content_id) := by
  have hsome : (findContent s p.content_id).isSome := by rw [hr]; rfl
  have hkeyR : ∀ x : ContentRow, (x.content_id == p.content_id) = true →
      ((rowOfPayload p t).content_id == p.content_id) = true := by
    intro x _; simp [rowOfPayload]
  have hkeyPG : ∀ x : ContentRow, (x.content_id == p.content_id) = true →
      ((updateRowPG x p).content_id == p.content_id) = true := by
    intro x hx; simpa [updateRowPG] using hx
  have hfindSQ : findContent (saveContentSQLite s p t) p.content_id =
      some (rowOfPayload p t) := by
    unfold saveContentSQLite
    rw [if_pos hsome]
    unfold findContent at hr ⊢
    rw [find?_map_upsert _ _ hkeyR, hr]
    rfl
  have hfindPG : findContent (saveContentPG s p t) p.content_id =
      some (updateRowPG r p) := by
    unfold saveContentPG
    rw [if_pos hsome]
    unfold findContent at hr ⊢
    rw [find?_map_upsert _ _ hkeyPG, hr]
    rfl
  refine ⟨hfindSQ, rfl, rfl, ?_, ?_⟩
  · rw [hfindPG]; rfl
  · intro htag heq
    rw [hfindSQ, hfindPG] at heq
    have := congrArg (fun o => Option.map (fun x : ContentRow => x.is_tagged) o) heq
    simp [rowOfPayload, updateRowPG, htag] at this

/-- Witness for C10 at the sample row and payload: the SQLite branch
resets the tagged flag, the PostgreSQL branch keeps it, so the results
differ. -/
theorem save_content_branches_not_equivalent_witness :
    findContent (saveContentSQLite [sampleRow] samplePayload 9)
        samplePayload.content_id =
      some (rowOfPayload samplePayload 9) ∧
    (findContent (saveContentSQLite [sampleRow] samplePayload 9)
        samplePayload.content_id ≠
      findContent (saveContentPG [sampleRow] samplePayload 9)
        samplePayload.content_id) :=
  ⟨(save_content_branches_not_equivalent [sampleRow] samplePayload sampleRow 9
      (by decide)).1,
   (save_content_branches_not_equivalent [sampleRow] samplePayload sampleRow 9
      (by decide)).2.2.2.2 rfl⟩

/-- C4. Contrary to the spec's keying invariant, the crawler's
`save_creator` upserts keyed by `user_id` (both branches), so saving a
creator whose stored record still carries the placeholder
`user_id = url_token` under its now-discovered real id inserts a second
record with the same `url_token` instead of updating the first; only
the `/sync/upload` creator upsert is keyed by `url_token` and
reconciles the placeholder to the real id without duplication. -/
theorem save_creator_not_keyed_by_url_token :
    (saveCreatorPG [placeholderCreatorRow] realCreatorPayload 7).map
        (fun r => r.url_token) = ["xu-yuan", "xu-yuan"] ∧
    (saveCreatorSQLite [placeholderCreatorRow] realCreatorPayload 7).map
        (fun r => r.url_token) = ["xu-yuan", "xu-yuan"] ∧
    (uploadCreator [placeholderCreatorRow] realCreatorPayload 7).map
        (fun r => (r.url_token, r.user_id)) = [("xu-yuan", "abc123")] ∧
    placeholderCreatorRow.user_id = placeholderCreatorRow.url_token ∧
    realCreatorPayload.url_token = placeholderCreatorRow.url_token ∧
    realCreatorPayload.user_id ≠ placeholderCreatorRow.user_id := by
  decide

lemma getLatestContentTime_ne_zero (s : List ContentRow) (a : String)
    (W : Nat) (h : getLatestContentTime s a = some W) : W ≠ 0 := by
  unfold getLatestContentTime at h
  split at h
  · cases h
  · rename_i m hm
    by_cases h0 : m = 0
    · rw [if_pos h0] at h; cases h
    · rw [if_neg h0] at h
      cases h; exact h0

lemma itemAction_save_gt (fl : CrawlFilters) (W ct : Nat)
    (hi : fl.incremental = true) (hw : fl.watermark = some W) (h0 : W ≠ 0)
    (hs : (itemAction fl ct).1 = true) : W < ct := by
  unfold itemAction at hs
  by_cases h1 : fl.incremental = true ∧ optTruthy fl.watermark = true ∧
      ct ≤ fl.watermark.getD 0
  · rw [if_pos h1] at hs
    exact absurd hs (by simp)
  · have htru : optTruthy fl.watermark = true := by
      rw [hw]; simp [optTruthy, h0]
    have : ¬ ct ≤ W := fun hle => h1 ⟨hi, htru, by rw [hw]; exact hle⟩
    omega

lemma foldl_page_saved_gt (fl : CrawlFilters) (W : Nat)
    (hi : fl.incremental = true) (hw : fl.watermark = some W) (h0 : W ≠ 0) :
    ∀ (items : List ContentPayload) (acc : List ContentPayload × Bool),
      (∀ x ∈ acc.1, W < x.created_time) →
      ∀ x ∈ (items.foldl
        (fun acc item =>
          let a := itemAction fl item.created_time
          ((if a.1 then acc.1 ++ [item] else acc.1), acc.2 || a.2))
        acc).1, W < x.created_time := by
  intro items
  induction items with
  | nil => intro acc hacc x hx; exact hacc x hx
  | cons it rest ih =>
    intro acc hacc x hx
    simp only [List.foldl_cons] at hx
    refine ih _ ?_ x hx
    intro y hy
    by_cases hsave : (itemAction fl it.created_time).1 = true
    · simp only [hsave, if_true, List.mem_append, List.mem_singleton] at hy
      rcases hy with hy | hy
      · exact hacc y hy
      · subst hy
        exact itemAction_save_gt fl W y.created_time hi hw h0 hsave
    · have hs' : (itemAction fl it.created_time).1 = false := by
        simpa using hsave
      simp only [hs', if_false] at hy
      exact hacc y hy

lemma processPage_saved_gt (fl : CrawlFilters) (W : Nat)
    (hi : fl.incremental = true) (hw : fl.watermark = some W) (h0 : W ≠ 0)
    (items : List ContentPayload) :
    ∀ x ∈ (processPage fl items).1, W < x.created_time := by
  intro x hx
  exact foldl_page_saved_gt fl W hi hw h0 items ([], false) (by simp) x hx

lemma crawlPages_saved_gt (fl : CrawlFilters) (W : Nat)
    (hi : fl.incremental = true) (hw : fl.watermark = some W) (h0 : W ≠ 0) :
    ∀ (pages : List Page), ∀ x ∈ crawlPages fl pages, W < x.created_time := by
  intro pages
  induction pages with
  | nil => intro x hx; simp [crawlPages] at hx
  | cons pg rest ih =>
    intro x hx
    unfold crawlPages at hx
    by_cases he : pg.data.isEmpty
    · rw [if_pos he] at hx; simp at hx
    · rw [if_neg he] at hx
      by_cases hstop : (pg.is_end || (processPage fl pg.data).2) = true
      · rw [if_pos hstop] at hx
        exact processPage_saved_gt fl W hi hw h0 pg.data x hx
      · rw [if_neg hstop] at hx
        rcases List.mem_append.mp hx with hx | hx
        · exact processPage_saved_gt fl W hi hw h0 pg.data x hx
        · exact ih x hx

/-- C6. For every creator with an existing watermark `W` (the maximum
`created_time` already stored for the creator's identity), a crawl run
in incremental mode (no caller-supplied start filter, which would
disable the watermark) stores zero content items with
`created_time ≤ W`: every payload handed to `save_content` has
`created_time > W`. -/
theorem incremental_crawl_skips_watermarked (store : List ContentRow)
    (authorId : String) (answerPages articlePages : List Page)
    (endTs : Option Nat) (W : Nat)
    (hW : getLatestContentTime store authorId = some W) :
    ∀ item ∈ crawlCreator store authorId answerPages articlePages
        true none endTs, W < item.created_time := by
  intro item hitem
  have h0 : W ≠ 0 := getLatestContentTime_ne_zero store authorId W hW
  unfold crawlCreator at hitem
  simp only [optTruthy, and_true, if_pos trivial] at hitem
  rw [hW] at hitem
  rcases List.mem_append.mp hitem with h | h
  · exact crawlPages_saved_gt _ W rfl rfl h0 answerPages item h
  · exact crawlPages_saved_gt _ W rfl rfl h0 articlePages item h

/-- A stored content row giving creator `auth1` the watermark 10. -/
def demoStoredRow : ContentRow :=
  { content_id := "old", content_type := "answer", title := ""
  , content_text := "", content_url := "", created_time := 10
  , updated_time := 0, voteup_count := 0, comment_count := 0
  , author_id := "auth1", author_name := "", author_avatar := ""
  , is_tagged := 0, created_at := 0 }

/-- A fresh item newer than the watermark. -/
def demoNewItem : ContentPayload :=
  { content_id := "new", content_type := "answer", title := "x"
  , content_text := "y", content_url := "u", created_time := 15
  , updated_time := 15, voteup_count := 0, comment_count := 0
  , author_id := "auth1", author_name := "", author_avatar := "" }

/-- An item at or below the watermark, which the incremental check must
skip. -/
def demoOldItem : ContentPayload :=
  { content_id := "stale", content_type := "answer", title := "x"
  , content_text := "y", content_url := "u", created_time := 5
  , updated_time := 5, voteup_count := 0, comment_count := 0
  , author_id := "auth1", author_name := "", author_avatar := "" }

/-- The single answers page of the witness run. -/
def demoPages : List Page :=
  [{ data := [demoNewItem, demoOldItem], is_end := true }]

/-- Witness for C6: with watermark 10 in the store, an incremental run
over a page holding items at times 15 and 5 stores exactly the fresh
item, and the theorem applies to it. -/
theorem incremental_crawl_skips_watermarked_witness :
    10 < demoNewItem.created_time ∧
    crawlCreator [demoStoredRow] "auth1" demoPages [] true none none =
      [demoNewItem] :=
  ⟨incremental_crawl_skips_watermarked [demoStoredRow] "auth1" demoPages []
      none 10 (by decide) demoNewItem (by decide),
   by decide⟩

/-- C3 counterexample. Day 10 with trading-day set {0}: the set is
non-empty, 10 is not in it, and day 0 lies exactly 10 days earlier —
inside the claim's 10-day lookback — yet `align_to_trading_day` returns
day 10 unchanged, because its loop `for i in range(1, 10)` only tries
offsets 1 through 9. -/
theorem align_to_trading_day_ten_cex :
    alignToTradingDay 10 [0] = 10 ∧
    ([0] : List Int) ≠ [] ∧
    (10 : Int) ∉ ([0] : List Int) ∧
    (10 : Int) - 10 ∈ ([0] : List Int) ∧
    alignToTradingDay 10 [0] ≠ (10 : Int) - 10 := by
  decide

/-- C3 (amended). For every day number `d` and trading-day list `T`:
if `T` is empty or `d ∈ T`, the result is `d`; otherwise the result is
the nearest earlier day within a NINE-day lookback (offsets 1..9, from
`range(1, 10)`) that is in `T`, and `d` unchanged when no offset in
1..9 hits. -/
theorem align_to_trading_day_spec (d : Int) (T : List Int) :
    (T = [] → alignToTradingDay d T = d) ∧
    (d ∈ T → alignToTradingDay d T = d) ∧
    (T ≠ [] → d ∉ T →
      ((∀ i : Int, 1 ≤ i → i ≤ 9 → (d - i) ∉ T) →
        alignToTradingDay d T = d) ∧
      (∀ i : Int, 1 ≤ i → i ≤ 9 → (d - i) ∈ T →
        (∀ j : Int, 1 ≤ j → j < i → (d - j) ∉ T) →
        alignToTradingDay d T = d - i)) := by
  refine ⟨?_, ?_, ?_⟩
  · intro h; simp [alignToTradingDay, h]
  · intro h
    unfold alignToTradingDay
    by_cases hT : T = []
    · rw [if_pos hT]
    · rw [if_neg hT, if_pos h]
  · intro hT hd
    constructor
    · intro hmiss
      unfold alignToTradingDay
      rw [if_neg hT, if_neg hd, lookbackSearch_none d T LOOKBACK_OFFSETS ?_]
      · rfl
      · intro i hi
        fin_cases hi <;> exact hmiss _ (by norm_num) (by norm_num)
    · intro i h1 h9 hit hmin
      unfold alignToTradingDay
      rw [if_neg hT, if_neg hd]
      have hji : ∀ j : Int, j ∈ LOOKBACK_OFFSETS → j < i → (d - j) ∉ T := by
        intro j hj hlt
        fin_cases hj <;> exact hmin _ (by norm_num) hlt
      interval_cases i
      · rw [show LOOKBACK_OFFSETS =
            ([] : List Int) ++ (1 : Int) :: [2, 3, 4, 5, 6, 7, 8, 9] from rfl,
          lookbackSearch_first d T _ _ _ (by intro j hj; simp at hj) hit]
        rfl
      · rw [show LOOKBACK_OFFSETS =
            ([1] : List Int) ++ (2 : Int) :: [3, 4, 5, 6, 7, 8, 9] from rfl,
          lookbackSearch_first d T _ _ _
            (fun j hj => hji j (by fin_cases hj <;> decide) (by
              fin_cases hj <;> decide)) hit]
        rfl
      · rw [show LOOKBACK_OFFSETS =
            ([1, 2] : List Int) ++ (3 : Int) :: [4, 5, 6, 7, 8, 9] from rfl,
          lookbackSearch_first d T _ _ _
            (fun j hj => hji j (by fin_cases hj <;> decide) (by
              fin_cases hj <;> decide)) hit]
        rfl
      · rw [show LOOKBACK_OFFSETS =
            ([1, 2, 3] : List Int) ++ (4 : Int) :: [5, 6, 7, 8, 9] from rfl,
          lookbackSearch_first d T _ _ _
            (fun j hj => hji j (by fin_cases hj <;> decide) (by
              fin_cases hj <;> decide)) hit]
        rfl
      · rw [show LOOKBACK_OFFSETS =
            ([1, 2, 3, 4] : List Int) ++ (5 : Int) :: [6, 7, 8, 9] from rfl,
          lookbackSearch_first d T _ _ _
            (fun j hj => hji j (by fin_cases hj <;> decide) (by
              fin_cases hj <;> decide)) hit]
        rfl
      · rw [show LOOKBACK_OFFSETS =
            ([1, 2, 3, 4, 5] : List Int) ++ (6 : Int) :: [7, 8, 9] from rfl,
          lookbackSearch_first d T _ _ _
            (fun j hj => hji j (by fin_cases hj <;> decide) (by
              fin_cases hj <;> decide)) hit]
        rfl
      · rw [show LOOKBACK_OFFSETS =
            ([1, 2, 3, 4, 5, 6] : List Int) ++ (7 : Int) :: [8, 9] from rfl,
          lookbackSearch_first d T _ _ _
            (fun j hj => hji j (by fin_cases hj <;> decide) (by
              fin_cases hj <;> decide)) hit]
        rfl
      · rw [show LOOKBACK_OFFSETS =
            ([1, 2, 3, 4, 5, 6, 7] : List Int) ++ (8 : Int) :: [9] from rfl,
          lookbackSearch_first d T _ _ _
            (fun j hj => hji j (by fin_cases hj <;> decide) (by
              fin_cases hj <;> decide)) hit]
        rfl
      · rw [show LOOKBACK_OFFSETS =
            ([1, 2, 3, 4, 5, 6, 7, 8] : List Int) ++ (9 : Int) :: [] from rfl,
          lookbackSearch_first d T _ _ _
            (fun j hj => hji j (by fin_cases hj <;> decide) (by
              fin_cases hj <;> decide)) hit]
        rfl

/-- Witness for C3 (amended): day 12 (a Saturday, say) over the
trading-day set {5, 10}: not a trading day, and the nearest earlier
trading day within 9 days is 10 (offset 2, offset 1 missing). -/
theorem align_to_trading_day_spec_witness :
    alignToTradingDay 12 [5, 10] = (12 : Int) - 2 :=
  ((align_to_trading_day_spec 12 [5, 10]).2.2 (by decide) (by decide)).2 2
    (by decide) (by decide) (by decide) (by decide)

lemma filter_not_then_filter (cid : String) (refs : List StockRef) :
    ((refs.filter (fun r => r.article_id != cid)).filter
      (fun r => r.article_id == cid)) = [] := by
  induction refs with
  | nil => rfl
  | cons a rest ih =>
    cases hpa : (a.article_id == cid) <;>
      simp [List.filter_cons, hpa, bne, ih]

lemma filter_ne_idem (cid : String) (refs : List StockRef) :
    ((refs.filter (fun r => r.article_id != cid)).filter
      (fun r => r.article_id != cid)) = refs.filter (fun r => r.article_id != cid) := by
  induction refs with
  | nil => rfl
  | cons a rest ih =>
    cases hpa : (a.article_id == cid) <;>
      simp [List.filter_cons, hpa, bne, ih]

lemma map_strip_filter (syms : List String) :
    ((syms.filter (fun s => stripString s != "")).map stripString) =
      (syms.map stripString).filter (fun s => s != "") := by
  induction syms with
  | nil => rfl
  | cons a rest ih =>
    cases h : (stripString a != "") <;>
      simp [List.filter_cons, List.map_cons, h, ih]

lemma manualRefs_filter_eq (cid : String) (D : Option Nat) (now : Nat) :
    ∀ l : List String,
      ((l.map (fun s => manualRef cid s D now)).filter
        (fun r => r.article_id == cid)) =
        l.map (fun s => manualRef cid s D now) := by
  intro l
  induction l with
  | nil => rfl
  | cons a rest ih => simp [List.filter_cons, manualRef, ih]

lemma manualRefs_filter_ne (cid : String) (D : Option Nat) (now : Nat) :
    ∀ l : List String,
      ((l.map (fun s => manualRef cid s D now)).filter
        (fun r => r.article_id != cid)) = [] := by
  intro l
  induction l with
  | nil => rfl
  | cons a rest ih => simp [List.filter_cons, manualRef, ih]

/-- C8. For an existing content item, the manual override endpoint
replaces the item's entire prior association set: in the resulting
store, every row of the item carries `match_keyword = "manual"` and the
sentinel score 100, the item's rows are exactly one row per submitted
symbol with non-blank stripped form (in submission order, holding the
stripped symbol), and the rows of all other content items are exactly
what they were before — no leftover rows of the item from the automatic
tagging pass survive. -/
theorem manual_override_replaces_associations (cs : List ContentRow)
    (refs : List StockRef) (cid : String) (syms : List String) (now : Nat)
    (article : ContentRow) (out : List StockRef)
    (hA : findContent cs cid = some article)
    (hout : updateArticleStocks cs refs cid syms now = .ok out) :
    (∀ r ∈ out, r.article_id = cid →
      r.match_keyword = "manual" ∧ r.match_score = 100) ∧
    ((out.filter (fun r => r.article_id == cid)).map
        (fun r => r.stock_symbol) =
      (syms.map stripString).filter (fun s => s != "")) ∧
    out.filter (fun r => r.article_id != cid) =
      refs.filter (fun r => r.article_id != cid) := by
  unfold updateArticleStocks at hout
  rw [hA] at hout
  simp only [Except.ok.injEq] at hout
  subst hout
  refine ⟨?_, ?_, ?_⟩
  · intro r hr hrid
    rcases List.mem_append.mp hr with hr | hr
    · have := (List.mem_filter.mp hr).2
      simp [bne, hrid] at this
    · rcases List.mem_map.mp hr with ⟨s, _, rfl⟩
      exact ⟨rfl, rfl⟩
  · rw [List.filter_append, filter_not_then_filter, List.nil_append,
      manualRefs_filter_eq, List.map_map]
    have : ((fun r : StockRef => r.stock_symbol) ∘
        (fun s => manualRef cid s (if article.created_time ≠ 0
          then some (dayOfTimestamp article.created_time) else none) now)) =
        stripString := by
      funext s; rfl
    rw [this, map_strip_filter]
  · rw [List.filter_append, filter_ne_idem, manualRefs_filter_ne,
      List.append_nil]

/-- The association rows left by an automatic tagging pass: one row for
the overridden article `c1` and one for an unrelated article `c2`. -/
def demoRefsAuto : List StockRef :=
  [ { article_id := "c1", stock_symbol := "000001", display_date := some 1
    , original_date := some 1, match_keyword := "平安银行"
    , match_score := 11, created_at := 0 }
  , { article_id := "c2", stock_symbol := "600519", display_date := some 1
    , original_date := some 1, match_keyword := "贵州茅台"
    , match_score := 21, created_at := 0 } ]

/-- The store after manually overriding `c1` with
`["600519", "000858"]`: the unrelated row survives, the item's old row
is gone, and the item has exactly the two manual rows. -/
def demoManualOut : List StockRef :=
  [ { article_id := "c2", stock_symbol := "600519", display_date := some 1
    , original_date := some 1, match_keyword := "贵州茅台"
    , match_score := 21, created_at := 0 }
  , manualRef "c1" "600519" (some 0) 7
  , manualRef "c1" "000858" (some 0) 7 ]

/-- Witness for C8 at the spec's example symbols. -/
theorem manual_override_replaces_associations_witness :
    updateArticleStocks [sampleRow] demoRefsAuto "c1"
      ["600519", "000858"] 7 = .ok demoManualOut ∧
    ((demoManualOut.filter (fun r => r.article_id == "c1")).map
        (fun r => r.stock_symbol) =
      ((["600519", "000858"].map stripString).filter (fun s => s != ""))) :=
  ⟨by rfl,
   (manual_override_replaces_associations [sampleRow] demoRefsAuto "c1"
      ["600519", "000858"] 7 sampleRow demoManualOut (by decide)
      (by rfl)).2.1⟩

/-- C9. With all three bounded primary attempts failing: the backoff
delays performed are exactly 2 s then 4 s (so `2 * 2^attempt`,
consistent with exponential backoff at 3 attempts) and the primary
loop gives up; the Netease fallback is then consulted under the
re-encoded symbol and its non-empty result is returned; if the
fallback also fails the instrument yields the empty DataFrame and is
skipped, and in the batch loop the surrounding instruments are
processed exactly as if the failing one were absent — a single
instrument's total failure never aborts the batch.  The fallback
encoding prefixes '0' for Shenzhen symbols (leading '0'/'3') and '1'
for Shanghai symbols (leading '6'/'9'). -/
theorem market_data_retry_fallback_skip (env : FetchEnv) (symbol : String)
    (df : List Nat)
    (h0 : env.primary 0 = .failure) (h1 : env.primary 1 = .failure)
    (h2 : env.primary 2 = .failure) :
    primaryLoop env 0 3 = (none, [2, 4]) ∧
    (env.secondary (neteaseSymbol symbol) = .ok df → df ≠ [] →
      fetchStockHistWithRetry env symbol = (df, [2, 4])) ∧
    (env.secondary (neteaseSymbol symbol) = .failure →
      fetchStockHistWithRetry env symbol = ([], [2, 4])) ∧
    (env.secondary (neteaseSymbol symbol) = .failure →
      ∀ pre post : List (String × FetchEnv),
        updateDailyQuotes (pre ++ (symbol, env) :: post) =
          updateDailyQuotes pre ++ (symbol, []) :: updateDailyQuotes post) ∧
    ((firstCharIs symbol '0' || firstCharIs symbol '3') = true →
      neteaseSymbol symbol = "0" ++ symbol) ∧
    ((firstCharIs symbol '0' || firstCharIs symbol '3') = false →
      (firstCharIs symbol '6' || firstCharIs symbol '9') = true →
      neteaseSymbol symbol = "1" ++ symbol) := by
  have e3 : primaryLoop env 0 3 = (none, [2, 4]) := by
    simp [primaryLoop, h0, h1, h2]
  have hfail : env.secondary (neteaseSymbol symbol) = .failure →
      fetchStockHistWithRetry env symbol = ([], [2, 4]) := by
    intro hsec
    unfold fetchStockHistWithRetry
    rw [e3, hsec]
  refine ⟨e3, ?_, hfail, ?_, ?_, ?_⟩
  · intro hsec hdf
    unfold fetchStockHistWithRetry
    rw [e3, hsec]
    simp [hdf]
  · intro hsec pre post
    induction pre with
    | nil =>
      rw [List.nil_append]
      show (symbol, (fetchStockHistWithRetry env symbol).1) ::
          updateDailyQuotes post = _
      rw [hfail hsec]
      rfl
    | cons x rest ih =>
      rw [List.cons_append]
      show (x.1, (fetchStockHistWithRetry x.2 x.1).1) ::
          updateDailyQuotes (rest ++ (symbol, env) :: post) = _
      rw [ih]
      rfl
  · intro h
    simp [neteaseSymbol, h]
  · intro hne hsh
    simp [neteaseSymbol, hne, hsh]

/-! ## The tagger's per-symbol semantics -/

/-- Effect of one positive keyword count on a symbol's dict entry: a
strictly greater count replaces count and keyword, anything else leaves
the entry alone; a missing entry is created. -/
def mergeCount (c : Nat) (kw : String) :
    Option (Nat × String) → Option (Nat × String)
  | none => some (c, kw)
  | some e => if e.1 < c then some (c, kw) else some e

/-- Effect of one keyword-dictionary entry on a symbol's match entry:
keywords shorter than 2, keywords not occurring in the text and
keywords not mapping to the symbol leave it alone. -/
def entryStep (text sym : String) (o : Option (Nat × String))
    (e : String × List String) : Option (Nat × String) :=
  if e.1.length < 2 then o
  else if 0 < countOccs e.1 text ∧ sym ∈ e.2 then
    mergeCount (countOccs e.1 text) e.1 o
  else o

/-- `kw` is a keyword of the dictionary that matches `sym` with
occurrence count `c` in `text` and is long enough to participate. -/
def GoodKw (kws : List (String × List String)) (sym text kw : String)
    (c : Nat) : Prop :=
  2 ≤ kw.length ∧ (∃ e ∈ kws, e.1 = kw ∧ sym ∈ e.2) ∧
    countOccs kw text = c

lemma mergeCount_idem (c : Nat) (kw : String) (o : Option (Nat × String)) :
    mergeCount c kw (mergeCount c kw o) = mergeCount c kw o := by
  cases o with
  | none => simp [mergeCount]
  | some e =>
    by_cases h : e.1 < c
    · simp [mergeCount, h]
    · simp [mergeCount, h]

lemma lookup_updateEntry (sym' sym : String) (c : Nat) (kw : String) :
    ∀ m : List (String × Nat × String),
      lookupMatch (updateEntry m sym c kw) sym' =
        if sym' = sym then mergeCount c kw (lookupMatch m sym)
        else lookupMatch m sym' := by
  intro m
  induction m with
  | nil =>
    by_cases h : sym' = sym
    · subst h; simp [updateEntry, lookupMatch, mergeCount]
    · simp [updateEntry, lookupMatch, mergeCount, h, Ne.symm h]
  | cons e rest ih =>
    by_cases he : e.1 = sym
    · by_cases h : sym' = sym
      · subst h
        by_cases hc : e.2.1 < c
        · simp [updateEntry, he, hc, lookupMatch, mergeCount]
        · simp [updateEntry, he, hc, lookupMatch, mergeCount]
      · have hes : ¬ e.1 = sym' := fun hh => h (hh.symm.trans he)
        by_cases hc : e.2.1 < c
        · simp [updateEntry, he, hc, lookupMatch, mergeCount, h, Ne.symm h,
            hes]
        · simp [updateEntry, he, hc, lookupMatch, mergeCount, h, Ne.symm h,
            hes]
    · by_cases h : e.1 = sym'
      · have hns : ¬ sym' = sym := fun hh => he (h.trans hh)
        simp [updateEntry, he, lookupMatch, h, hns]
      · by_cases hss : sym' = sym
        · subst hss
          simp [updateEntry, lookupMatch, he, h, ih]
        · simp [updateEntry, lookupMatch, he, h, hss, ih]

lemma lookup_symsFold (c : Nat) (kw : String) :
    ∀ (syms : List String) (m : List (String × Nat × String)) (sym : String),
      lookupMatch (syms.foldl (fun m' s => updateEntry m' s c kw) m) sym =
        if sym ∈ syms then mergeCount c kw (lookupMatch m sym)
        else lookupMatch m sym := by
  intro syms
  induction syms with
  | nil => intro m sym; simp
  | cons s rest ih =>
    intro m sym
    simp only [List.foldl_cons]
    rw [ih, lookup_updateEntry]
    by_cases hss : sym = s
    · subst hss
      rw [if_pos rfl]
      by_cases hs : sym ∈ rest
      · rw [if_pos hs, mergeCount_idem, if_pos (List.mem_cons_self sym rest)]
      · rw [if_neg hs, if_pos (List.mem_cons_self sym rest)]
    · rw [if_neg hss]
      by_cases hs : sym ∈ rest
      · rw [if_pos hs, if_pos (List.mem_cons_of_mem s hs)]
      · rw [if_neg hs,
          if_neg (fun hh => (List.mem_cons.mp hh).elim hss hs)]

lemma lookup_kwFold (text sym : String) :
    ∀ (kws : List (String × List String))
      (m : List (String × Nat × String)),
      lookupMatch
        (kws.foldl
          (fun m e =>
            if e.1.length < 2 then m
            else
              let count := countOccs e.1 text
              if 0 < count then
                e.2.foldl (fun m' s => updateEntry m' s count e.1) m
              else m)
          m) sym =
      kws.foldl (entryStep text sym) (lookupMatch m sym) := by
  intro kws
  induction kws with
  | nil => intro m; rfl
  | cons e rest ih =>
    intro m
    simp only [List.foldl_cons]
    rw [ih]
    congr 1
    by_cases hlen : e.1.length < 2
    · rw [if_pos hlen]
      unfold entryStep
      rw [if_pos hlen]
    · rw [if_neg hlen]
      by_cases hcnt : 0 < countOccs e.1 text
      · rw [if_pos hcnt, lookup_symsFold]
        unfold entryStep
        rw [if_neg hlen]
        by_cases hmem : sym ∈ e.2
        · rw [if_pos hmem, if_pos ⟨hcnt, hmem⟩]
        · rw [if_neg hmem, if_neg (fun hh => hmem hh.2)]
      · rw [if_neg hcnt]
        unfold entryStep
        rw [if_neg hlen, if_neg (fun hh => hcnt hh.1)]

lemma specFieldCount_cons (sym text : String) (e : String × List String)
    (rest : List (String × List String)) :
    specFieldCount sym text (e :: rest) =
      max (if 2 ≤ e.1.length ∧ sym ∈ e.2 then countOccs e.1 text else 0)
        (specFieldCount sym text rest) := rfl

lemma goodKw_lift (e : String × List String)
    (kws : List (String × List String)) (sym text kw : String) (c : Nat)
    (h : GoodKw kws sym text kw c) : GoodKw (e :: kws) sym text kw c := by
  obtain ⟨h1, ⟨e', he', h2⟩, h3⟩ := h
  exact ⟨h1, ⟨e', List.mem_cons_of_mem e he', h2⟩, h3⟩

lemma entryFold_from_some (text sym : String) :
    ∀ (kws : List (String × List String)) (c₀ : Nat) (kw₀ : String),
      (specFieldCount sym text kws ≤ c₀ →
        kws.foldl (entryStep text sym) (some (c₀, kw₀)) = some (c₀, kw₀)) ∧
      (c₀ < specFieldCount sym text kws →
        ∃ kw, kws.foldl (entryStep text sym) (some (c₀, kw₀)) =
          some (specFieldCount sym text kws, kw) ∧
          GoodKw kws sym text kw (specFieldCount sym text kws)) := by
  intro kws
  induction kws with
  | nil =>
    intro c₀ kw₀
    refine ⟨fun _ => rfl, fun h => ?_⟩
    simp [specFieldCount] at h
  | cons e rest ih =>
    intro c₀ kw₀
    by_cases hterm : 2 ≤ e.1.length ∧ sym ∈ e.2
    · have hspec : specFieldCount sym text (e :: rest) =
          max (countOccs e.1 text) (specFieldCount sym text rest) := by
        rw [specFieldCount_cons, if_pos hterm]
      by_cases hcnt : 0 < countOccs e.1 text
      · have hstep : entryStep text sym (some (c₀, kw₀)) e =
            mergeCount (countOccs e.1 text) e.1 (some (c₀, kw₀)) := by
          unfold entryStep
          rw [if_neg (by omega), if_pos ⟨hcnt, hterm.2⟩]
        constructor
        · intro hle
          rw [hspec] at hle
          have hc : ¬ c₀ < countOccs e.1 text := by omega
          simp only [List.foldl_cons, hstep, mergeCount, if_neg hc]
          exact (ih c₀ kw₀).1 (by omega)
        · intro hlt
          rw [hspec] at hlt ⊢
          by_cases hcc : c₀ < countOccs e.1 text
          · simp only [List.foldl_cons, hstep, mergeCount, if_pos hcc]
            by_cases hrc : specFieldCount sym text rest ≤ countOccs e.1 text
            · have hmax : max (countOccs e.1 text)
                  (specFieldCount sym text rest) = countOccs e.1 text := by
                omega
              rw [hmax]
              refine ⟨e.1, (ih _ _).1 hrc, hterm.1,
                ⟨e, List.mem_cons_self e rest, rfl, hterm.2⟩, rfl⟩
            · have hcr : countOccs e.1 text < specFieldCount sym text rest := by
                omega
              have hmax : max (countOccs e.1 text)
                  (specFieldCount sym text rest) =
                  specFieldCount sym text rest := by omega
              rw [hmax]
              obtain ⟨kw, hkw, hg⟩ := (ih _ _).2 hcr
              exact ⟨kw, hkw, goodKw_lift e rest sym text kw _ hg⟩
          · have hc : countOccs e.1 text ≤ c₀ := by omega
            simp only [List.foldl_cons, hstep, mergeCount, if_neg hcc]
            have hcr : c₀ < specFieldCount sym text rest := by omega
            have hmax : max (countOccs e.1 text)
                (specFieldCount sym text rest) =
                specFieldCount sym text rest := by omega
            rw [hmax]
            obtain ⟨kw, hkw, hg⟩ := (ih _ _).2 hcr
            exact ⟨kw, hkw, goodKw_lift e rest sym text kw _ hg⟩
      · have hc0 : countOccs e.1 text = 0 := by omega
        have hstep : entryStep text sym (some (c₀, kw₀)) e = some (c₀, kw₀) := by
          unfold entryStep
          rw [if_neg (by omega), if_neg (fun hh => hcnt hh.1)]
        have hspec' : specFieldCount sym text (e :: rest) =
            specFieldCount sym text rest := by
          rw [hspec, hc0]; omega
        rw [hspec']
        constructor
        · intro hle
          simp only [List.foldl_cons, hstep]
          exact (ih c₀ kw₀).1 hle
        · intro hlt
          simp only [List.foldl_cons, hstep]
          obtain ⟨kw, hkw, hg⟩ := (ih c₀ kw₀).2 hlt
          exact ⟨kw, hkw, goodKw_lift e rest sym text kw _ hg⟩
    · have hspec' : specFieldCount sym text (e :: rest) =
          specFieldCount sym text rest := by
        rw [specFieldCount_cons, if_neg hterm]
        omega
      have hstep : entryStep text sym (some (c₀, kw₀)) e = some (c₀, kw₀) := by
        unfold entryStep
        by_cases hlen : e.1.length < 2
        · rw [if_pos hlen]
        · rw [if_neg hlen,
            if_neg (fun hh => hterm ⟨by omega, hh.2⟩)]
      rw [hspec']
      constructor
      · intro hle
        simp only [List.foldl_cons, hstep]
        exact (ih c₀ kw₀).1 hle
      · intro hlt
        simp only [List.foldl_cons, hstep]
        obtain ⟨kw, hkw, hg⟩ := (ih c₀ kw₀).2 hlt
        exact ⟨kw, hkw, goodKw_lift e rest sym text kw _ hg⟩

lemma entryFold_from_none (text sym : String) :
    ∀ kws : List (String × List String),
      (specFieldCount sym text kws = 0 →
        kws.foldl (entryStep text sym) none = none) ∧
      (0 < specFieldCount sym text kws →
        ∃ kw, kws.foldl (entryStep text sym) none =
          some (specFieldCount sym text kws, kw) ∧
          GoodKw kws sym text kw (specFieldCount sym text kws)) := by
  intro kws
  induction kws with
  | nil =>
    refine ⟨fun _ => rfl, fun h => ?_⟩
    simp [specFieldCount] at h
  | cons e rest ih =>
    by_cases hterm : 2 ≤ e.1.length ∧ sym ∈ e.2
    · have hspec : specFieldCount sym text (e :: rest) =
          max (countOccs e.1 text) (specFieldCount sym text rest) := by
        rw [specFieldCount_cons, if_pos hterm]
      by_cases hcnt : 0 < countOccs e.1 text
      · have hstep : entryStep text sym none e =
            some (countOccs e.1 text, e.1) := by
          unfold entryStep
          rw [if_neg (by omega), if_pos ⟨hcnt, hterm.2⟩]
          rfl
        constructor
        · intro h0
          rw [hspec] at h0
          omega
        · intro hpos
          rw [hspec]
          simp only [List.foldl_cons, hstep]
          by_cases hrc : specFieldCount sym text rest ≤ countOccs e.1 text
          · have hmax : max (countOccs e.1 text)
                (specFieldCount sym text rest) = countOccs e.1 text := by
              omega
            rw [hmax]
            refine ⟨e.1, (entryFold_from_some text sym rest _ _).1 hrc,
              hterm.1, ⟨e, List.mem_cons_self e rest, rfl, hterm.2⟩, rfl⟩
          · have hcr : countOccs e.1 text < specFieldCount sym text rest := by
              omega
            have hmax : max (countOccs e.1 text)
                (specFieldCount sym text rest) =
                specFieldCount sym text rest := by omega
            rw [hmax]
            obtain ⟨kw, hkw, hg⟩ :=
              (entryFold_from_some text sym rest _ _).2 hcr
            exact ⟨kw, hkw, goodKw_lift e rest sym text kw _ hg⟩
      · have hc0 : countOccs e.1 text = 0 := by omega
        have hstep : entryStep text sym none e = none := by
          unfold entryStep
          rw [if_neg (by omega), if_neg (fun hh => hcnt hh.1)]
        have hspec' : specFieldCount sym text (e :: rest) =
            specFieldCount sym text rest := by
          rw [hspec, hc0]; omega
        rw [hspec']
        constructor
        · intro h0
          simp only [List.foldl_cons, hstep]
          exact ih.1 h0
        · intro hpos
          simp only [List.foldl_cons, hstep]
          obtain ⟨kw, hkw, hg⟩ := ih.2 hpos
          exact ⟨kw, hkw, goodKw_lift e rest sym text kw _ hg⟩
    · have hspec' : specFieldCount sym text (e :: rest) =
          specFieldCount sym text rest := by
        rw [specFieldCount_cons, if_neg hterm]
        omega
      have hstep : entryStep text sym none e = none := by
        unfold entryStep
        by_cases hlen : e.1.length < 2
        · rw [if_pos hlen]
        · rw [if_neg hlen,
            if_neg (fun hh => hterm ⟨by omega, hh.2⟩)]
      rw [hspec']
      constructor
      · intro h0
        simp only [List.foldl_cons, hstep]
        exact ih.1 h0
      · intro hpos
        simp only [List.foldl_cons, hstep]
        obtain ⟨kw, hkw, hg⟩ := ih.2 hpos
        exact ⟨kw, hkw, goodKw_lift e rest sym text kw _ hg⟩

lemma specFieldCount_empty_text (sym text : String)
    (h : text.data.isEmpty = true) :
    ∀ kws : List (String × List String), specFieldCount sym text kws = 0 := by
  have hd : text.data = [] := by
    cases hx : text.data
    · rfl
    · rw [hx] at h; simp [List.isEmpty] at h
  have hc : ∀ k : String, countOccs k text = 0 := by
    intro k
    unfold countOccs
    rw [hd]
    by_cases hk : k.data.isEmpty
    · rw [if_pos hk]
    · rw [if_neg hk]
      rfl
  intro kws
  induction kws with
  | nil => rfl
  | cons e rest ih =>
    rw [specFieldCount_cons, ih, hc]
    simp

/-- Per-field summary of `match_keywords`: a symbol has an entry exactly
when some admissible keyword occurs in the text, the recorded count is
the MAXIMUM occurrence count over the keywords mapping to the symbol,
and the recorded keyword is one achieving that maximum. -/
lemma matchKeywords_lookup (text sym : String)
    (kws : List (String × List String)) :
    (specFieldCount sym text kws = 0 →
      lookupMatch (matchKeywords text kws) sym = none) ∧
    (0 < specFieldCount sym text kws →
      ∃ kw, lookupMatch (matchKeywords text kws) sym =
        some (specFieldCount sym text kws, kw) ∧
        GoodKw kws sym text kw (specFieldCount sym text kws)) := by
  by_cases hempty : text.data.isEmpty
  · have hz := specFieldCount_empty_text sym text hempty kws
    constructor
    · intro _
      unfold matchKeywords
      rw [if_pos hempty]
      rfl
    · intro h; omega
  · have hfold : lookupMatch (matchKeywords text kws) sym =
        kws.foldl (entryStep text sym) none := by
      unfold matchKeywords
      rw [if_neg hempty, lookup_kwFold]
      rfl
    rw [hfold]
    exact entryFold_from_none text sym kws

lemma keys_updateEntry (sym : String) (c : Nat) (kw : String) :
    ∀ m : List (String × Nat × String),
      (updateEntry m sym c kw).map (fun e => e.1) =
        if sym ∈ m.map (fun e => e.1) then m.map (fun e => e.1)
        else m.map (fun e => e.1) ++ [sym] := by
  intro m
  induction m with
  | nil => simp [updateEntry]
  | cons e rest ih =>
    by_cases he : e.1 = sym
    · by_cases hc : e.2.1 < c
      · simp [updateEntry, he, hc]
      · simp [updateEntry, he, hc]
    · have hse : ¬ sym = e.1 := fun h => he h.symm
      by_cases hs : sym ∈ rest.map (fun e => e.1)
      · simp [updateEntry, he, ih, hs, hse]
      · simp [updateEntry, he, ih, hs, hse]

lemma nodup_updateEntry (sym : String) (c : Nat) (kw : String)
    (m : List (String × Nat × String))
    (h : (m.map (fun e => e.1)).Nodup) :
    ((updateEntry m sym c kw).map (fun e => e.1)).Nodup := by
  rw [keys_updateEntry]
  by_cases hs : sym ∈ m.map (fun e => e.1)
  · rw [if_pos hs]; exact h
  · rw [if_neg hs]
    rw [List.nodup_append]
    exact ⟨h, List.nodup_singleton sym, by simpa using hs⟩

lemma nodup_symsFold (c : Nat) (kw : String) :
    ∀ (syms : List String) (m : List (String × Nat × String)),
      (m.map (fun e => e.1)).Nodup →
      (((syms.foldl (fun m' s => updateEntry m' s c kw) m)).map
        (fun e => e.1)).Nodup := by
  intro syms
  induction syms with
  | nil => intro m h; exact h
  | cons s rest ih =>
    intro m h
    simp only [List.foldl_cons]
    exact ih _ (nodup_updateEntry s c kw m h)

lemma nodup_matchKeywords (text : String)
    (kws : List (String × List String)) :
    ((matchKeywords text kws).map (fun e => e.1)).Nodup := by
  unfold matchKeywords
  by_cases hempty : text.data.isEmpty
  · rw [if_pos hempty]; exact List.nodup_nil
  · rw [if_neg hempty]
    suffices h : ∀ (l : List (String × List String))
        (m : List (String × Nat × String)),
        (m.map (fun e => e.1)).Nodup →
        ((l.foldl
          (fun m e =>
            if e.1.length < 2 then m
            else
              let count := countOccs e.1 text
              if 0 < count then
                e.2.foldl (fun m' s => updateEntry m' s count e.1) m
              else m)
          m).map (fun e => e.1)).Nodup by
      exact h kws [] List.nodup_nil
    intro l
    induction l with
    | nil => intro m h; exact h
    | cons e rest ih =>
      intro m h
      simp only [List.foldl_cons]
      apply ih
      by_cases hlen : e.1.length < 2
      · rw [if_pos hlen]; exact h
      · rw [if_neg hlen]
        by_cases hcnt : 0 < countOccs e.1 text
        · rw [if_pos hcnt]
          exact nodup_symsFold _ _ e.2 m h
        · rw [if_neg hcnt]; exact h

lemma lookup_map_weight (w : Nat) (sym : String) :
    ∀ titleM : List (String × Nat × String),
      lookupMatch (titleM.map (fun e => (e.1, e.2.1 * w, e.2.2))) sym =
        (lookupMatch titleM sym).map (fun p => (p.1 * w, p.2)) := by
  intro titleM
  induction titleM with
  | nil => rfl
  | cons e rest ih =>
    by_cases he : e.1 = sym
    · simp [lookupMatch, he]
    · simp [lookupMatch, he, ih]

lemma lookup_addScoreEntry (sym' sym : String) (score : Nat) (kw : String) :
    ∀ m : List (String × Nat × String),
      lookupMatch (addScoreEntry m sym score kw) sym' =
        if sym' = sym then
          match lookupMatch m sym with
          | none => some (score, kw)
          | some e => some (e.1 + score, e.2)
        else lookupMatch m sym' := by
  intro m
  induction m with
  | nil =>
    by_cases h : sym' = sym
    · subst h; simp [addScoreEntry, lookupMatch]
    · simp [addScoreEntry, lookupMatch, h, Ne.symm h]
  | cons e rest ih =>
    by_cases he : e.1 = sym
    · by_cases h : sym' = sym
      · subst h
        simp [addScoreEntry, he, lookupMatch]
      · have hes : ¬ e.1 = sym' := fun hh => h (hh.symm.trans he)
        simp [addScoreEntry, he, lookupMatch, h, Ne.symm h, hes]
    · by_cases h : e.1 = sym'
      · have hns : ¬ sym' = sym := fun hh => he (h.trans hh)
        simp [addScoreEntry, he, lookupMatch, h, hns]
      · by_cases hss : sym' = sym
        · subst hss
          simp [addScoreEntry, lookupMatch, he, h, ih]
        · simp [addScoreEntry, lookupMatch, he, h, hss, ih]

lemma combineFold_frame (sym : String) :
    ∀ (cm : List (String × Nat × String))
      (acc : List (String × Nat × String)),
      (∀ e ∈ cm, e.1 ≠ sym) →
      lookupMatch
        (cm.foldl
          (fun acc e => addScoreEntry acc e.1 (e.2.1 * CONTENT_WEIGHT) e.2.2)
          acc) sym = lookupMatch acc sym := by
  intro cm
  induction cm with
  | nil => intro acc _; rfl
  | cons e rest ih =>
    intro acc h
    simp only [List.foldl_cons]
    rw [ih _ (fun x hx => h x (List.mem_cons_of_mem e hx)),
      lookup_addScoreEntry,
      if_neg (fun hh => h e (List.mem_cons_self e rest) hh.symm)]

lemma lookup_combineFold (sym : String) :
    ∀ (cm : List (String × Nat × String))
      (acc : List (String × Nat × String)),
      ((cm.map (fun e => e.1)).Nodup) →
      lookupMatch
        (cm.foldl
          (fun acc e => addScoreEntry acc e.1 (e.2.1 * CONTENT_WEIGHT) e.2.2)
          acc) sym =
        match lookupMatch cm sym with
        | none => lookupMatch acc sym
        | some c =>
          match lookupMatch acc sym with
          | none => some (c.1 * CONTENT_WEIGHT, c.2)
          | some a => some (a.1 + c.1 * CONTENT_WEIGHT, a.2) := by
  intro cm
  induction cm with
  | nil => intro acc _; rfl
  | cons e rest ih =>
    intro acc hnd
    obtain ⟨k, cv⟩ := e
    simp only [List.map_cons] at hnd
    have hnd' : ((rest.map (fun e => e.1)).Nodup) := (List.nodup_cons.mp hnd).2
    simp only [List.foldl_cons]
    by_cases he : k = sym
    · subst he
      have hrest : ∀ x ∈ rest, x.1 ≠ k := by
        intro x hx hxs
        exact (List.nodup_cons.mp hnd).1
          (hxs ▸ List.mem_map_of_mem (fun e => e.1) hx)
      rw [combineFold_frame k rest _ hrest, lookup_addScoreEntry,
        if_pos rfl]
      have hcm : lookupMatch ((k, cv) :: rest) k = some cv := by
        simp [lookupMatch]
      rw [hcm]
    · have hcm : lookupMatch ((k, cv) :: rest) sym = lookupMatch rest sym := by
        simp [lookupMatch, he]
      rw [ih _ hnd', lookup_addScoreEntry,
        if_neg (fun hh : sym = k => he hh.symm), hcm]

/-- An instrument for which every outbound call fails. -/
def demoFailEnv : FetchEnv :=
  { primary := fun _ => .failure, secondary := fun _ => .failure }

/-- Witness for C9: a totally failing Shanghai instrument performs
backoffs 2 s and 4 s, is encoded "1600519" for the fallback, ends with
the empty DataFrame, and leaves its batch neighbours untouched. -/
theorem market_data_retry_fallback_skip_witness :
    fetchStockHistWithRetry demoFailEnv "600519" = ([], [2, 4]) ∧
    neteaseSymbol "600519" = "1" ++ "600519" ∧
    updateDailyQuotes ([("000001", demoFailEnv)] ++
        ("600519", demoFailEnv) :: []) =
      updateDailyQuotes [("000001", demoFailEnv)] ++
        ("600519", []) :: updateDailyQuotes [] :=
  ⟨(market_data_retry_fallback_skip demoFailEnv "600519" [] rfl rfl rfl).2.2.1
      rfl,
   (market_data_retry_fallback_skip demoFailEnv "600519" [] rfl rfl
      rfl).2.2.2.2.2 (by decide) (by decide),
   (market_data_retry_fallback_skip demoFailEnv "600519" [] rfl rfl
      rfl).2.2.2.1 rfl [("000001", demoFailEnv)] []⟩

/-- C5. For every sequence of HTTP status codes fed to the governor:
after exactly 3 consecutive 403 responses it trips and raises
`CrawlerStoppedError` while processing the third response — before any
later status in the trace (a 4th request) is consumed — a run from a
reset counter trips exactly when the trace contains 3 consecutive 403s,
and any single non-403 response resets the consecutive-403 counter
to 0. -/
theorem governor_trips_after_three_403s
    (count status : Nat) (rest trace : List Nat) (hs : status ≠ 403) :
    check403Limit count status = .ok 0 ∧
    runGovernor 0 (403 :: 403 :: 403 :: rest) = .error () ∧
    runGovernor 0 [403, 403] = .ok 2 ∧
    (runGovernor 0 trace = .error () ↔ hasTriple403 trace = true) := by
  refine ⟨?_, ?_, ?_, ?_⟩
  · simp [check403Limit, hs]
  · simp [runGovernor, check403Limit, max403Errors]
  · simp [runGovernor, check403Limit, max403Errors]
  · rw [runGovernor_error_iff trace 0 (by omega)]
    constructor
    · rintro (h3 | ht)
      · exact hasTriple403_of_leading trace (by omega)
      · exact ht
    · exact Or.inr

/-- Witness for C5 at concrete inputs. -/
theorem governor_trips_after_three_403s_witness :
    check403Limit 2 200 = .ok 0 ∧
    runGovernor 0 (403 :: 403 :: 403 :: [403, 200]) = .error () ∧
    runGovernor 0 [403, 403] = .ok 2 ∧
    (runGovernor 0 [403, 200, 403, 403, 403] = .error () ↔
      hasTriple403 [403, 200, 403, 403, 403] = true) :=
  governor_trips_after_three_403s 2 200 [403, 200] [403, 200, 403, 403, 403]
    (by decide)

/-- C7. Calling the start endpoint while the persisted job state's
`is_running` flag is true is rejected synchronously with HTTP 400 and
leaves the whole persisted state (in particular `current_task`)
unaltered; calling it while idle is accepted and transitions the
persisted state to `is_running = true` with `current_task` set to the
new task name (and progress reset to 0), all other fields kept. -/
theorem start_crawl_conflict_rejected (s : SyncState) :
    (s.is_running = true → startCrawl s = (some 400, s)) ∧
    (s.is_running = false →
      startCrawl s =
        (none, { s with is_running := true
                      , current_task := some "crawl_zhihu"
                      , progress := some 0 })) := by
  constructor
  · intro h; simp [startCrawl, h]
  · intro h; simp [startCrawl, h, runSyncTaskStart]

/-- Witness for C7: a running state is rejected unchanged, the default
idle state is accepted and transitioned. -/
theorem start_crawl_conflict_rejected_witness :
    startCrawl
        { defaultSyncState with
            is_running := true, current_task := some "tag_articles" } =
      (some 400,
        { defaultSyncState with
            is_running := true, current_task := some "tag_articles" }) ∧
    startCrawl defaultSyncState =
      (none,
        { defaultSyncState with
            is_running := true, current_task := some "crawl_zhihu",
            progress := some 0 }) :=
  ⟨(start_crawl_conflict_rejected _).1 rfl,
   (start_crawl_conflict_rejected _).2 rfl⟩

/-- C2 counterexample. Two disjoint keywords "AA" and "BB" both map to
symbol "S" and each occurs once in the title "AABB" (body empty).  The
claim's sum over ALL matching keywords gives (1 + 1) × 10 = 20, but the
code records the maximum count per field, scoring 10 — the association
keeps only the highest-count keyword's count per field instead of
summing the keywords' scores. -/
theorem tagger_sum_cex :
    tagArticleScores "AABB" "" [("AA", ["S"]), ("BB", ["S"])] =
      [("S", 10, "AA")] ∧
    countOccs "AA" "AABB" = 1 ∧
    countOccs "BB" "AABB" = 1 ∧
    (countOccs "AA" "AABB" * 10 + countOccs "BB" "AABB" * 10 +
      (countOccs "AA" "" + countOccs "BB" "") * 1) = 20 ∧
    lookupMatch (tagArticleScores "AABB" "" [("AA", ["S"]), ("BB", ["S"])])
      "S" = some (10, "AA") ∧
    (10 : Nat) ≠ 20 := by
  decide

/-- C2 (amended). For every content item and every symbol, the
association score is not a sum over all matching keywords: per field
the recorded count is the MAXIMUM occurrence count over the keywords of
length ≥ 2 mapping to that symbol, and
`match_score = (max title count) × 10 + (max body count) × 1`; a symbol
gets an entry exactly when some admissible keyword occurs in the title
or the body; the recorded `match_keyword` is a keyword mapping to the
symbol that achieves the maximal count in the title whenever the title
matches at all, and otherwise achieves the maximal count in the body. -/
theorem tagger_score_is_weighted_max (kws : List (String × List String))
    (title content sym : String) :
    (specFieldCount sym title kws = 0 → specFieldCount sym content kws = 0 →
      lookupMatch (tagArticleScores title content kws) sym = none) ∧
    (0 < specFieldCount sym title kws ∨ 0 < specFieldCount sym content kws →
      ∃ kw, lookupMatch (tagArticleScores title content kws) sym =
        some (specFieldCount sym title kws * TITLE_WEIGHT +
          specFieldCount sym content kws * CONTENT_WEIGHT, kw) ∧
        2 ≤ kw.length ∧ (∃ e ∈ kws, e.1 = kw ∧ sym ∈ e.2) ∧
        (0 < specFieldCount sym title kws →
          countOccs kw title = specFieldCount sym title kws) ∧
        (specFieldCount sym title kws = 0 →
          countOccs kw content = specFieldCount sym content kws)) := by
  have htitle := matchKeywords_lookup title sym kws
  have hcontent := matchKeywords_lookup content sym kws
  constructor
  · intro hmt hmc
    have ht := htitle.1 hmt
    have hc := hcontent.1 hmc
    unfold tagArticleScores combineScores
    rw [lookup_combineFold sym _ _ (nodup_matchKeywords content kws), hc,
      lookup_map_weight, ht]
    rfl
  · intro hor
    by_cases hmt : 0 < specFieldCount sym title kws
    · obtain ⟨kwt, hkwt, hgt⟩ := htitle.2 hmt
      by_cases hmc : 0 < specFieldCount sym content kws
      · obtain ⟨kwc, hkwc, hgc⟩ := hcontent.2 hmc
        refine ⟨kwt, ?_, hgt.1, hgt.2.1, fun _ => hgt.2.2,
          fun h0 => absurd h0 (by omega)⟩
        unfold tagArticleScores combineScores
        rw [lookup_combineFold sym _ _ (nodup_matchKeywords content kws),
          hkwc, lookup_map_weight, hkwt]
        rfl
      · have hmc0 : specFieldCount sym content kws = 0 := by omega
        have hc := hcontent.1 hmc0
        refine ⟨kwt, ?_, hgt.1, hgt.2.1, fun _ => hgt.2.2,
          fun h0 => absurd h0 (by omega)⟩
        unfold tagArticleScores combineScores
        rw [lookup_combineFold sym _ _ (nodup_matchKeywords content kws),
          hc, lookup_map_weight, hkwt]
        simp [hmc0]
    · have hmt0 : specFieldCount sym title kws = 0 := by omega
      have hmc : 0 < specFieldCount sym content kws := by
        rcases hor with h | h
        · omega
        · exact h
      obtain ⟨kwc, hkwc, hgc⟩ := hcontent.2 hmc
      have ht := htitle.1 hmt0
      refine ⟨kwc, ?_, hgc.1, hgc.2.1, fun h => absurd h (by omega),
        fun _ => hgc.2.2⟩
      unfold tagArticleScores combineScores
      rw [lookup_combineFold sym _ _ (nodup_matchKeywords content kws),
        hkwc, lookup_map_weight, ht]
      simp [hmt0]

/-- The spec's example keyword dictionary: "贵州茅台" maps to 600519. -/
def demoKws : List (String × List String) := [("贵州茅台", ["600519"])]

/-- A title containing the keyword twice. -/
def demoTitle : String := "贵州茅台大涨，看好贵州茅台"

/-- A body containing the keyword once. -/
def demoContent : String := "今天聊聊贵州茅台的基本面"

/-- Witness for C2 (amended) at the spec's own example: two title
occurrences and one body occurrence of "贵州茅台" score
2×10 + 1×1 = 21 for symbol 600519, exceeding the threshold and
producing exactly one association entry. -/
theorem tagger_score_is_weighted_max_witness :
    specFieldCount "600519" demoTitle demoKws = 2 ∧
    specFieldCount "600519" demoContent demoKws = 1 ∧
    (tagArticleScores demoTitle demoContent demoKws).filter
        (fun e => MIN_SCORE_THRESHOLD ≤ e.2.1) =
      [("600519", 2 * TITLE_WEIGHT + 1 * CONTENT_WEIGHT, "贵州茅台")] ∧
    (∃ kw, lookupMatch (tagArticleScores demoTitle demoContent demoKws)
        "600519" =
      some (specFieldCount "600519" demoTitle demoKws * TITLE_WEIGHT +
        specFieldCount "600519" demoContent demoKws * CONTENT_WEIGHT, kw) ∧
      2 ≤ kw.length ∧ (∃ e ∈ demoKws, e.1 = kw ∧ "600519" ∈ e.2) ∧
      (0 < specFieldCount "600519" demoTitle demoKws →
        countOccs kw demoTitle = specFieldCount "600519" demoTitle demoKws) ∧
      (specFieldCount "600519" demoTitle demoKws = 0 →
        countOccs kw demoContent =
          specFieldCount "600519" demoContent demoKws)) :=
  ⟨by decide, by decide, by decide,
   (tagger_score_is_weighted_max demoKws demoTitle demoContent "600519").2
     (Or.inl (by decide))⟩

end QuantStudio
